import Mathlib

/-!
Shallow embedding of the DRM atomic display state-transaction engine
(source file: drm_atomic.c of this repository).

Conventions of the embedding:
* CRTCs, planes and connectors are identified by their dense index (a Nat),
  matching drm_crtc_index / drm_plane_index / drm_connector_index.
* Machine integers are modelled as Nat (unsigned) or Int (signed) with
  explicit reduction modulo 2 to the 32 or 64 where C overflow matters.
* The external collaborators (the deadlock-avoiding lock primitive, the
  per-object-kind duplicate/destroy hooks, blob and framebuffer lookup, the
  global atomic-check and atomic-commit hooks, allocation success) live in
  an Env record of oracle functions; the code under verification consults
  them exactly where drm_atomic.c calls out.
* Every operation additionally returns a List Ev trace of the externally
  visible hook invocations it performs (duplication, destruction, reference
  count changes, global hook calls), so that at-most-once and exactly-once
  properties are statable.
* Reference counting on blobs is not traced (blob fields hold ids only);
  framebuffer references are traced where drm_atomic_set_fb_for_plane
  manipulates them.
-/

namespace DrmAtomic

/-- Error kinds returned by the engine, named by the C errno macro the source
uses; results carry them through Except or Option (none meaning success 0). -/
inductive Errno where
  | EINVAL
  | ENOMEM
  | EDEADLK
  | ENOSPC
  | ERANGE
  | EFAULT
  | ENOENT
deriving DecidableEq

/-- Locks acquired through the transaction's acquire context: one per CRTC
(crtc->mutex), one per plane (plane->mutex), and the device-global
connection_mutex guarding the connector list. -/
inductive LockId where
  | crtc (i : Nat)
  | plane (i : Nat)
  | connection
deriving DecidableEq

/-- Externally visible hook invocations recorded in operation traces. -/
inductive Ev where
  | dupCrtc (i : Nat)
  | dupPlane (i : Nat)
  | dupConn (i : Nat)
  | destroyCrtc (i : Nat)
  | destroyPlane (i : Nat)
  | destroyConn (i : Nat)
  | connRef (i : Nat)
  | connUnref (i : Nat)
  | fdInstall (fd : Nat)
  | fbRef (fbId : Nat)
  | fbUnref (fbId : Nat)
  | freeCommitEvent (i : Nat)
  | commitPut (i : Nat)
  | eventCancel (i : Nat)
  | checkHook
  | commitHook (nonblocking : Bool)
deriving DecidableEq

/-- struct drm_framebuffer: the fields the atomic core reads. width and
height are C unsigned int (32 bits). -/
structure Fb where
  id : Nat
  width : Nat
  height : Nat
  pixelFormat : Nat
deriving DecidableEq

/-- struct drm_pending_vblank_event, reduced to the two base fields the
atomic ioctl inspects (base.fence and base.file_priv). -/
structure EventRec where
  hasFence : Bool
  hasFilePriv : Bool
deriving DecidableEq

/-- struct drm_crtc_commit, reduced to whether it carries an event pointer
(the only field drm_atomic_state_default_clear inspects). -/
structure CommitRec where
  hasEvent : Bool
deriving DecidableEq

/-- struct drm_crtc_state: the duplicated per-CRTC snapshot. Blob properties
are stored by blob id. -/
structure CrtcState where
  enable : Bool
  active : Bool
  modeBlob : Option Nat
  degammaLut : Option Nat
  ctm : Option Nat
  gammaLut : Option Nat
  colorMgmtChanged : Bool
  planeMask : Nat
  connectorMask : Nat
  event : Option EventRec
  modeChanged : Bool
  activeChanged : Bool
deriving DecidableEq

/-- struct drm_plane_state: the duplicated per-plane snapshot. crtc_x/crtc_y
are int32_t, crtc_w/crtc_h and the 16.16 fixed-point src fields uint32_t. -/
structure PlaneState where
  crtc : Option Nat
  fb : Option Fb
  fence : Option Nat
  crtc_x : Int
  crtc_y : Int
  crtc_w : Nat
  crtc_h : Nat
  src_x : Nat
  src_y : Nat
  src_w : Nat
  src_h : Nat
  rot : Nat
  zpos : Nat
deriving DecidableEq

/-- struct drm_connector_state, reduced to its CRTC back-reference. -/
structure ConnState where
  crtc : Option Nat
deriving DecidableEq

/-- One slot of drm_atomic_state::crtcs: object pointer (modelled as a Bool,
the index being the slot position), owned snapshot, pending commit record
and the out-fence user pointer. -/
structure CrtcEntry where
  ptr : Bool
  state : Option CrtcState
  commit : Option CommitRec
  outFencePtr : Option Nat
deriving DecidableEq

/-- One slot of drm_atomic_state::planes. -/
structure PlaneEntry where
  ptr : Bool
  state : Option PlaneState
deriving DecidableEq

/-- One slot of drm_atomic_state::connectors. -/
structure ConnEntry where
  ptr : Bool
  state : Option ConnState
deriving DecidableEq

def emptyCrtcEntry : CrtcEntry :=
  { ptr := false, state := none, commit := none, outFencePtr := none }

def emptyPlaneEntry : PlaneEntry := { ptr := false, state := none }

def emptyConnEntry : ConnEntry := { ptr := false, state := none }

/-- struct drm_atomic_state: the global transaction container. The crtcs and
planes lists are sized at allocation to the device object counts; the
connectors list grows dynamically (its length is state->num_connector).
held models the set of modeset locks owned by the acquire context. -/
structure AtomicState where
  crtcs : List CrtcEntry
  planes : List PlaneEntry
  connectors : List ConnEntry
  held : List LockId
  allowModeset : Bool
deriving DecidableEq

/-- Device-wide read-only configuration plus the canonical (committed)
object states the atomic core consults (crtc->state, plane->state). -/
structure Device where
  numCrtc : Nat
  numPlane : Nat
  numConnector : Nat
  crtcCurActive : Nat → Bool
  planeCurCrtc : Nat → Option Nat
  possibleCrtcs : Nat → Nat
  planeFormatOk : Nat → Nat → Bool
  atomicDriver : Bool
  asyncPageFlip : Bool

/-- struct drm_property_blob as the atomic core sees it: an id, a byte
length, and whether drm_mode_convert_umode accepts its payload. -/
structure Blob where
  id : Nat
  length : Nat
  modeParseOk : Bool
deriving DecidableEq

/-- Object kinds reachable from the ioctl object table. -/
inductive ObjRef where
  | crtc (i : Nat)
  | plane (i : Nat)
  | connector (i : Nat)
  | other
deriving DecidableEq

/-- Core property identities, resolved by pointer comparison against the
registered descriptors in the source; driver n stands for any non-core
property routed to the per-kind extension hook. -/
inductive PropId where
  | active
  | modeId
  | degammaLut
  | ctm
  | gammaLut
  | outFencePtr
  | fbId
  | inFenceFd
  | crtcId
  | crtcX
  | crtcY
  | crtcW
  | crtcH
  | srcX
  | srcY
  | srcW
  | srcH
  | rot
  | zpos
  | dpms
  | driver (n : Nat)
deriving DecidableEq

/-- External collaborators: each field is one oracle the core calls out to,
at exactly the place the C source invokes the corresponding primitive. -/
structure Env where
  lockOk : LockId → Bool
  dupCrtc : Nat → Option CrtcState
  dupPlane : Nat → Option PlaneState
  dupConn : Nat → Option ConnState
  connGrowOk : Nat → Bool
  lookupBlob : Nat → Option Blob
  lookupFb : Nat → Option Fb
  findCrtc : Nat → Option Nat
  syncFileFence : Nat → Option Nat
  putUserOk : Nat → Bool
  crtcDriverSet : Option (Nat → CrtcState → PropId → Nat → Except Errno CrtcState)
  planeDriverSet : Option (Nat → PlaneState → PropId → Nat → Except Errno PlaneState)
  connDriverSet : Option (Nat → ConnState → PropId → Nat → Except Errno ConnState)
  atomicCheck : Option (Device → AtomicState → Option Errno)
  atomicCommit : Device → AtomicState → Bool → Except Errno Device
  allocEventOk : Bool
  eventReserveErr : Option Errno
  growFenceOk : Bool
  createFenceOk : Bool
  getUnusedFd : Except Errno Nat
  syncFileCreateOk : Bool
  backoff : List LockId → List LockId
  findObj : Nat → Option ObjRef
  objHasProps : ObjRef → Bool
  lookupProp : ObjRef → Nat → Option PropId
  propChangeValid : PropId → Nat → Bool
  stateAllocOk : Bool

/-- Decidable equality of Except results, used to evaluate the witnesses. -/
instance instDecEqExcept {α β : Type} [DecidableEq α] [DecidableEq β] :
    DecidableEq (Except α β) := fun x y =>
  match x, y with
  | Except.ok a, Except.ok b =>
    if h : a = b then Decidable.isTrue (by rw [h])
    else Decidable.isFalse (by intro hc; cases hc; exact h rfl)
  | Except.error a, Except.error b =>
    if h : a = b then Decidable.isTrue (by rw [h])
    else Decidable.isFalse (by intro hc; cases hc; exact h rfl)
  | Except.ok _, Except.error _ => Decidable.isFalse (by intro hc; cases hc)
  | Except.error _, Except.ok _ => Decidable.isFalse (by intro hc; cases hc)

/-! Machine-integer helpers. -/

def U32MOD : Nat := 4294967296

def U32MAX : Nat := 4294967295

def U64MAX : Nat := 18446744073709551615

def INT32MAX : Int := 2147483647

/-- Truncation of an unsigned value to 32 bits (C assignment to uint32_t). -/
def toU32 (v : Nat) : Nat := v % U32MOD

/-- Reinterpretation of the low 32 bits of an unsigned value as int32_t
(C assignment of a u64 through U642I64 into an int32_t field). -/
def u64ToI32 (v : Nat) : Int :=
  let lo := v % U32MOD
  if lo < 2147483648 then (lo : Int) else (lo : Int) - (U32MOD : Int)

/-- mask = mask AND NOT (1 shl b) on a 32-bit mask. -/
def clearBit32 (m b : Nat) : Nat := m &&& (U32MAX ^^^ (1 <<< b))

/-- mask = mask OR (1 shl b). -/
def setBit32 (m b : Nat) : Nat := m ||| (1 <<< b)

/-! Entry accessors and updates of the per-kind tables. -/

def getCrtcEntry (s : AtomicState) (i : Nat) : CrtcEntry :=
  (s.crtcs[i]?).getD emptyCrtcEntry

def getPlaneEntry (s : AtomicState) (i : Nat) : PlaneEntry :=
  (s.planes[i]?).getD emptyPlaneEntry

def getConnEntry (s : AtomicState) (i : Nat) : ConnEntry :=
  (s.connectors[i]?).getD emptyConnEntry

/-- drm_atomic_get_existing_crtc_state: state->crtcs[index].state. -/
def drm_atomic_get_existing_crtc_state (s : AtomicState) (i : Nat) : Option CrtcState :=
  (getCrtcEntry s i).state

/-- drm_atomic_get_existing_plane_state: state->planes[index].state. -/
def drm_atomic_get_existing_plane_state (s : AtomicState) (i : Nat) : Option PlaneState :=
  (getPlaneEntry s i).state

/-- drm_atomic_get_existing_connector_state: state->connectors[index].state. -/
def drm_atomic_get_existing_connector_state (s : AtomicState) (i : Nat) : Option ConnState :=
  (getConnEntry s i).state

/-- Store a freshly duplicated CRTC snapshot: sets both the .state and the
.ptr field of the slot, leaving commit and out-fence untouched. -/
def putCrtcState (s : AtomicState) (i : Nat) (cs : CrtcState) : AtomicState :=
  { s with crtcs := s.crtcs.set i { getCrtcEntry s i with ptr := true, state := some cs } }

def putPlaneState (s : AtomicState) (i : Nat) (ps : PlaneState) : AtomicState :=
  { s with planes := s.planes.set i { getPlaneEntry s i with ptr := true, state := some ps } }

def putConnState (s : AtomicState) (i : Nat) (cs : ConnState) : AtomicState :=
  { s with connectors := s.connectors.set i { getConnEntry s i with ptr := true, state := some cs } }

/-- Rewrite the stored snapshot of a populated CRTC slot in place (the C
code mutates through the pointer returned by get-state; storage and the
returned pointer alias). A miss leaves the state unchanged. -/
def updateCrtcState (s : AtomicState) (i : Nat) (f : CrtcState → CrtcState) : AtomicState :=
  match s.crtcs[i]? with
  | some e =>
    match e.state with
    | some cs => { s with crtcs := s.crtcs.set i { e with state := some (f cs) } }
    | none => s
  | none => s

def updatePlaneState (s : AtomicState) (i : Nat) (f : PlaneState → PlaneState) : AtomicState :=
  match s.planes[i]? with
  | some e =>
    match e.state with
    | some ps => { s with planes := s.planes.set i { e with state := some (f ps) } }
    | none => s
  | none => s

def updateConnState (s : AtomicState) (i : Nat) (f : ConnState → ConnState) : AtomicState :=
  match s.connectors[i]? with
  | some e =>
    match e.state with
    | some cs => { s with connectors := s.connectors.set i { e with state := some (f cs) } }
    | none => s
  | none => s

/-- drm_modeset_lock through the transaction's acquire context. Re-acquiring
a lock the context already holds succeeds (the primitive maps EALREADY to
0); acquiring a new lock consults the deadlock-avoidance oracle and fails
with EDEADLK on contention. -/
def drm_modeset_lock (env : Env) (s : AtomicState) (l : LockId) :
    Except Errno Unit × AtomicState :=
  if l ∈ s.held then (Except.ok (), s)
  else if env.lockOk l then (Except.ok (), { s with held := l :: s.held })
  else (Except.error Errno.EDEADLK, s)

/-- drm_atomic_get_crtc_state (source lines 266-296): return the existing
snapshot if present, otherwise lock the CRTC, duplicate its state via the
external hook, and store the result in the slot. -/
def drm_atomic_get_crtc_state (env : Env) (s : AtomicState) (i : Nat) :
    Except Errno CrtcState × AtomicState × List Ev :=
  match drm_atomic_get_existing_crtc_state s i with
  | some cs => (Except.ok cs, s, [])
  | none =>
    match drm_modeset_lock env s (LockId.crtc i) with
    | (Except.error e, s1) => (Except.error e, s1, [])
    | (Except.ok _, s1) =>
      match env.dupCrtc i with
      | none => (Except.error Errno.ENOMEM, s1, [Ev.dupCrtc i])
      | some cs => (Except.ok cs, putCrtcState s1 i cs, [Ev.dupCrtc i])

/-- drm_atomic_get_plane_state (source lines 659-698): like the CRTC case,
and when the freshly duplicated snapshot references a CRTC, that CRTC's
state is acquired into the transaction before returning. -/
def drm_atomic_get_plane_state (env : Env) (s : AtomicState) (i : Nat) :
    Except Errno PlaneState × AtomicState × List Ev :=
  match drm_atomic_get_existing_plane_state s i with
  | some ps => (Except.ok ps, s, [])
  | none =>
    match drm_modeset_lock env s (LockId.plane i) with
    | (Except.error e, s1) => (Except.error e, s1, [])
    | (Except.ok _, s1) =>
      match env.dupPlane i with
      | none => (Except.error Errno.ENOMEM, s1, [Ev.dupPlane i])
      | some ps =>
        let s2 := putPlaneState s1 i ps
        match ps.crtc with
        | none => (Except.ok ps, s2, [Ev.dupPlane i])
        | some c =>
          match drm_atomic_get_crtc_state env s2 c with
          | (Except.error e, s3, evs) => (Except.error e, s3, Ev.dupPlane i :: evs)
          | (Except.ok _, s3, evs) => (Except.ok ps, s3, Ev.dupPlane i :: evs)

/-- Tail of drm_atomic_get_connector_state after the connection lock is held
and the table covers the index: return the existing snapshot if present,
else duplicate, take a connector reference, store, and pull in the
referenced CRTC's state. -/
def drm_atomic_get_connector_state_tail (env : Env) (t : AtomicState) (i : Nat) :
    Except Errno ConnState × AtomicState × List Ev :=
  match drm_atomic_get_existing_connector_state t i with
  | some cs => (Except.ok cs, t, [])
  | none =>
    match env.dupConn i with
    | none => (Except.error Errno.ENOMEM, t, [Ev.dupConn i])
    | some cs =>
      let s3 := putConnState t i cs
      match cs.crtc with
      | none => (Except.ok cs, s3, [Ev.dupConn i, Ev.connRef i])
      | some c =>
        match drm_atomic_get_crtc_state env s3 c with
        | (Except.error e, s4, evs) =>
          (Except.error e, s4, Ev.dupConn i :: Ev.connRef i :: evs)
        | (Except.ok _, s4, evs) =>
          (Except.ok cs, s4, Ev.dupConn i :: Ev.connRef i :: evs)

/-- drm_atomic_get_connector_state (source lines 946-1003): locks the
device-global connection_mutex first, grows the connector table (krealloc,
zeroing the new slots and updating num_connector) when the index is beyond
state->num_connector, then runs the lookup-or-duplicate tail. -/
def drm_atomic_get_connector_state (env : Env) (dev : Device) (s : AtomicState) (i : Nat) :
    Except Errno ConnState × AtomicState × List Ev :=
  match drm_modeset_lock env s LockId.connection with
  | (Except.error e, s1) => (Except.error e, s1, [])
  | (Except.ok _, s1) =>
    if s1.connectors.length ≤ i then
      let alloc := max (i + 1) dev.numConnector
      if env.connGrowOk alloc then
        drm_atomic_get_connector_state_tail env
          { s1 with connectors :=
            s1.connectors ++ List.replicate (alloc - s1.connectors.length) emptyConnEntry } i
      else (Except.error Errno.ENOMEM, s1, [])
    else drm_atomic_get_connector_state_tail env s1 i

/-- drm_atomic_set_fb_for_plane (source lines 1182-1199): drop the reference
on the old fb, take one on the new, store the pointer. -/
def drm_atomic_set_fb_for_plane (ps : PlaneState) (fb : Option Fb) :
    PlaneState × List Ev :=
  let evs1 := match ps.fb with
    | some old => [Ev.fbUnref old.id]
    | none => []
  let evs2 := match fb with
    | some f => [Ev.fbRef f.id]
    | none => []
  ({ ps with fb := fb }, evs1 ++ evs2)

/-- drm_atomic_set_crtc_for_plane (source lines 1133-1170). The plane state
being updated is the one stored in slot pi (the C caller passes the pointer
into the transaction; storage and pointer alias). No-op when the target
CRTC equals the current one; otherwise unlink from the old CRTC's
plane_mask (acquiring its state) and link into the new CRTC's plane_mask
(acquiring its state). The none arm of the outer match is unreachable for
the C callers, which always pass a live plane state. -/
def drm_atomic_set_crtc_for_plane (env : Env) (s : AtomicState) (pi : Nat)
    (crtc : Option Nat) : Except Errno Unit × AtomicState × List Ev :=
  match drm_atomic_get_existing_plane_state s pi with
  | none => (Except.error Errno.EINVAL, s, [])
  | some ps =>
    if ps.crtc = crtc then (Except.ok (), s, [])
    else
      let step1 : Except Errno Unit × AtomicState × List Ev :=
        match ps.crtc with
        | none => (Except.ok (), s, [])
        | some oldc =>
          match drm_atomic_get_crtc_state env s oldc with
          | (Except.error e, s1, evs) => (Except.error e, s1, evs)
          | (Except.ok _, s1, evs) =>
            (Except.ok (),
             updateCrtcState s1 oldc
               (fun cs => { cs with planeMask := clearBit32 cs.planeMask pi }), evs)
      match step1 with
      | (Except.error e, s1, evs) => (Except.error e, s1, evs)
      | (Except.ok _, s1, evs1) =>
        let s2 := updatePlaneState s1 pi (fun p => { p with crtc := crtc })
        match crtc with
        | none => (Except.ok (), s2, evs1)
        | some nc =>
          match drm_atomic_get_crtc_state env s2 nc with
          | (Except.error e, s3, evs2) => (Except.error e, s3, evs1 ++ evs2)
          | (Except.ok _, s3, evs2) =>
            (Except.ok (),
             updateCrtcState s3 nc
               (fun cs => { cs with planeMask := setBit32 cs.planeMask pi }), evs1 ++ evs2)

/-- drm_atomic_set_crtc_for_connector (source lines 1245-1285). The
connector state being updated is the one stored in slot ci. Unlinking reads
the old CRTC's state through get-existing without a null check in C; the
corresponding miss arm (unreachable under the linking invariant) is
modelled as EFAULT. -/
def drm_atomic_set_crtc_for_connector (env : Env) (s : AtomicState) (ci : Nat)
    (crtc : Option Nat) : Except Errno Unit × AtomicState × List Ev :=
  match drm_atomic_get_existing_connector_state s ci with
  | none => (Except.error Errno.EINVAL, s, [])
  | some cs0 =>
    if cs0.crtc = crtc then (Except.ok (), s, [])
    else
      let step1 : Except Errno Unit × AtomicState × List Ev :=
        match cs0.crtc with
        | none => (Except.ok (), s, [])
        | some oldc =>
          match drm_atomic_get_existing_crtc_state s oldc with
          | none => (Except.error Errno.EFAULT, s, [])
          | some _ =>
            let s1 := updateCrtcState s oldc
              (fun k => { k with connectorMask := clearBit32 k.connectorMask ci })
            let s2 := updateConnState s1 ci (fun c => { c with crtc := none })
            (Except.ok (), s2, [Ev.connUnref ci])
      match step1 with
      | (Except.error e, s1, evs) => (Except.error e, s1, evs)
      | (Except.ok _, s1, evs1) =>
        match crtc with
        | none => (Except.ok (), s1, evs1)
        | some nc =>
          match drm_atomic_get_crtc_state env s1 nc with
          | (Except.error e, s2, evs2) => (Except.error e, s2, evs1 ++ evs2)
          | (Except.ok _, s2, evs2) =>
            let s3 := updateCrtcState s2 nc
              (fun k => { k with connectorMask := setBit32 k.connectorMask ci })
            let s4 := updateConnState s3 ci (fun c => { c with crtc := some nc })
            (Except.ok (), s4, evs1 ++ evs2 ++ [Ev.connRef ci])

/-- sizeof(struct drm_mode_modeinfo), the exact length a mode blob must
have. -/
def SIZEOF_MODEINFO : Nat := 68

/-- sizeof(struct drm_color_ctm), the exact length a CTM blob must have
(nine u64 matrix entries). -/
def SIZEOF_CTM : Nat := 72

/-- drm_atomic_set_mode_prop_for_crtc (source lines 376-406): identity
fast-path, release of the old mode blob, then either validate and adopt the
new blob (setting enable) or clear the mode (clearing enable). -/
def drm_atomic_set_mode_prop_for_crtc (cs : CrtcState) (blob : Option Blob) :
    Except Errno CrtcState :=
  if cs.modeBlob = Option.map Blob.id blob then Except.ok cs
  else
    let cs1 := { cs with modeBlob := none }
    match blob with
    | some b =>
      if b.length ≠ SIZEOF_MODEINFO ∨ b.modeParseOk = false then Except.error Errno.EINVAL
      else Except.ok { cs1 with modeBlob := some b.id, enable := true }
    | none => Except.ok { cs1 with enable := false }

/-- drm_atomic_replace_property_blob_from_id (source lines 436-460) fused
with drm_atomic_replace_property_blob: looks up the new blob when the id is
nonzero (EINVAL on a bad id or a size mismatch when expectedSize is given),
then replaces the stored blob reference, reporting whether a change
happened. -/
def drm_atomic_replace_property_blob_from_id (env : Env) (cur : Option Nat)
    (blobId : Nat) (expectedSize : Option Nat) : Except Errno (Option Nat × Bool) :=
  let replace : Option Nat → Except Errno (Option Nat × Bool) := fun newb =>
    if cur = newb then Except.ok (cur, false) else Except.ok (newb, true)
  if blobId ≠ 0 then
    match env.lookupBlob blobId with
    | none => Except.error Errno.EINVAL
    | some b =>
      match expectedSize with
      | some n => if n ≠ b.length then Except.error Errno.EINVAL else replace (some b.id)
      | none => replace (some b.id)
  else replace none

/-- Record the out-fence user pointer for a CRTC
(set_out_fence_for_crtc, source lines 298-302). -/
def set_out_fence_for_crtc (s : AtomicState) (i : Nat) (ptr : Nat) : AtomicState :=
  match s.crtcs[i]? with
  | some e => { s with crtcs := s.crtcs.set i { e with outFencePtr := some ptr } }
  | none => s

/-- drm_atomic_crtc_set_property (source lines 478-535): core-property
dispatch by identity with the driver extension hook as fallback. The state
being updated is the snapshot stored in slot i. -/
def drm_atomic_crtc_set_property (env : Env) (s : AtomicState) (i : Nat)
    (prop : PropId) (val : Nat) : Except Errno Unit × AtomicState :=
  match drm_atomic_get_existing_crtc_state s i with
  | none => (Except.error Errno.EINVAL, s)
  | some cs =>
    match prop with
    | PropId.active =>
      (Except.ok (), updateCrtcState s i (fun c => { c with active := val ≠ 0 }))
    | PropId.modeId =>
      match drm_atomic_set_mode_prop_for_crtc cs (env.lookupBlob val) with
      | Except.error e => (Except.error e, s)
      | Except.ok cs2 => (Except.ok (), updateCrtcState s i (fun _ => cs2))
    | PropId.degammaLut =>
      match drm_atomic_replace_property_blob_from_id env cs.degammaLut val none with
      | Except.error e => (Except.error e, s)
      | Except.ok (nb, repl) =>
        (Except.ok (), updateCrtcState s i
          (fun c => { c with degammaLut := nb, colorMgmtChanged := c.colorMgmtChanged || repl }))
    | PropId.ctm =>
      match drm_atomic_replace_property_blob_from_id env cs.ctm val (some SIZEOF_CTM) with
      | Except.error e => (Except.error e, s)
      | Except.ok (nb, repl) =>
        (Except.ok (), updateCrtcState s i
          (fun c => { c with ctm := nb, colorMgmtChanged := c.colorMgmtChanged || repl }))
    | PropId.gammaLut =>
      match drm_atomic_replace_property_blob_from_id env cs.gammaLut val none with
      | Except.error e => (Except.error e, s)
      | Except.ok (nb, repl) =>
        (Except.ok (), updateCrtcState s i
          (fun c => { c with gammaLut := nb, colorMgmtChanged := c.colorMgmtChanged || repl }))
    | PropId.outFencePtr =>
      if val = 0 then (Except.ok (), s)
      else if env.putUserOk val then (Except.ok (), set_out_fence_for_crtc s i val)
      else (Except.error Errno.EFAULT, s)
    | p =>
      match env.crtcDriverSet with
      | some f =>
        match f i cs p val with
        | Except.error e => (Except.error e, s)
        | Except.ok cs2 => (Except.ok (), updateCrtcState s i (fun _ => cs2))
      | none => (Except.error Errno.EINVAL, s)

/-- drm_atomic_plane_set_property (source lines 716-770). The state being
updated is the snapshot stored in slot pi. Setting IN_FENCE_FD twice fails
EINVAL; the u64 sentinel -1 is a successful no-op. -/
def drm_atomic_plane_set_property (env : Env) (s : AtomicState) (pi : Nat)
    (prop : PropId) (val : Nat) : Except Errno Unit × AtomicState × List Ev :=
  match drm_atomic_get_existing_plane_state s pi with
  | none => (Except.error Errno.EINVAL, s, [])
  | some ps =>
    match prop with
    | PropId.fbId =>
      let (ps2, evs) := drm_atomic_set_fb_for_plane ps (env.lookupFb val)
      (Except.ok (), updatePlaneState s pi (fun _ => ps2), evs)
    | PropId.inFenceFd =>
      if ps.fence.isSome then (Except.error Errno.EINVAL, s, [])
      else if val = U64MAX then (Except.ok (), s, [])
      else
        match env.syncFileFence val with
        | none => (Except.error Errno.EINVAL, s, [])
        | some f => (Except.ok (), updatePlaneState s pi (fun p => { p with fence := some f }), [])
    | PropId.crtcId => drm_atomic_set_crtc_for_plane env s pi (env.findCrtc val)
    | PropId.crtcX =>
      (Except.ok (), updatePlaneState s pi (fun p => { p with crtc_x := u64ToI32 val }), [])
    | PropId.crtcY =>
      (Except.ok (), updatePlaneState s pi (fun p => { p with crtc_y := u64ToI32 val }), [])
    | PropId.crtcW =>
      (Except.ok (), updatePlaneState s pi (fun p => { p with crtc_w := toU32 val }), [])
    | PropId.crtcH =>
      (Except.ok (), updatePlaneState s pi (fun p => { p with crtc_h := toU32 val }), [])
    | PropId.srcX =>
      (Except.ok (), updatePlaneState s pi (fun p => { p with src_x := toU32 val }), [])
    | PropId.srcY =>
      (Except.ok (), updatePlaneState s pi (fun p => { p with src_y := toU32 val }), [])
    | PropId.srcW =>
      (Except.ok (), updatePlaneState s pi (fun p => { p with src_w := toU32 val }), [])
    | PropId.srcH =>
      (Except.ok (), updatePlaneState s pi (fun p => { p with src_h := toU32 val }), [])
    | PropId.rot =>
      (Except.ok (), updatePlaneState s pi (fun p => { p with rot := toU32 val }), [])
    | PropId.zpos =>
      (Except.ok (), updatePlaneState s pi (fun p => { p with zpos := toU32 val }), [])
    | p =>
      match env.planeDriverSet with
      | some f =>
        match f pi ps p val with
        | Except.error e => (Except.error e, s, [])
        | Except.ok ps2 => (Except.ok (), updatePlaneState s pi (fun _ => ps2), [])
      | none => (Except.error Errno.EINVAL, s, [])

/-- drm_atomic_connector_set_property (source lines 1021-1043): CRTC_ID and
DPMS are the only core connector properties; DPMS is always rejected in the
atomic path. -/
def drm_atomic_connector_set_property (env : Env) (s : AtomicState) (ci : Nat)
    (prop : PropId) (val : Nat) : Except Errno Unit × AtomicState × List Ev :=
  match drm_atomic_get_existing_connector_state s ci with
  | none => (Except.error Errno.EINVAL, s, [])
  | some cs =>
    match prop with
    | PropId.crtcId => drm_atomic_set_crtc_for_connector env s ci (env.findCrtc val)
    | PropId.dpms => (Except.error Errno.EINVAL, s, [])
    | p =>
      match env.connDriverSet with
      | some f =>
        match f ci cs p val with
        | Except.error e => (Except.error e, s, [])
        | Except.ok cs2 => (Except.ok (), updateConnState s ci (fun _ => cs2), [])
      | none => (Except.error Errno.EINVAL, s, [])

/-- plane_switching_crtc (source lines 831-848): true when both the
canonical plane state and the proposed state reference a CRTC and they
differ. -/
def plane_switching_crtc (dev : Device) (pi : Nat) (ps : PlaneState) : Bool :=
  match dev.planeCurCrtc pi, ps.crtc with
  | some a, some b => a ≠ b
  | _, _ => false

/-- Reinterpretation of a uint32_t as int32_t (the C cast in the CRTC
coordinate overflow check). -/
def i32OfU32 (v : Nat) : Int :=
  if v % U32MOD < 2147483648 then ((v % U32MOD : Nat) : Int)
  else ((v % U32MOD : Nat) : Int) - (U32MOD : Int)

/-- drm_atomic_plane_check (source lines 860-929): CRTC and FB set together
or neither; a disabled plane passes; else possible_crtcs membership,
supported pixel format, no signed-32-bit overflow of the CRTC-space
rectangle (ERANGE), source rectangle within the fb in 16.16 fixed point
with the width and height shifted left by 16 as C unsigned int (ENOSPC),
and no direct switch between CRTCs. -/
def drm_atomic_plane_check (dev : Device) (pi : Nat) (ps : PlaneState) : Option Errno :=
  match ps.crtc, ps.fb with
  | some _, none => some Errno.EINVAL
  | none, some _ => some Errno.EINVAL
  | none, none => none
  | some c, some fb =>
    if (dev.possibleCrtcs pi).testBit c = false then some Errno.EINVAL
    else if dev.planeFormatOk pi fb.pixelFormat = false then some Errno.EINVAL
    else if INT32MAX < (ps.crtc_w : Int) ∨ INT32MAX - i32OfU32 ps.crtc_w < ps.crtc_x ∨
            INT32MAX < (ps.crtc_h : Int) ∨ INT32MAX - i32OfU32 ps.crtc_h < ps.crtc_y then
      some Errno.ERANGE
    else
      let fbWidth := toU32 (fb.width <<< 16)
      let fbHeight := toU32 (fb.height <<< 16)
      if fbWidth < ps.src_w ∨ fbWidth - ps.src_w < ps.src_x ∨
         fbHeight < ps.src_h ∨ fbHeight - ps.src_h < ps.src_y then
        some Errno.ENOSPC
      else if plane_switching_crtc dev pi ps then some Errno.EINVAL
      else none

/-- drm_atomic_crtc_check (source lines 591-642): active requires enabled;
under DRIVER_ATOMIC, enable and mode blob must agree (both internal
invariants); and an event request on a CRTC inactive in both the canonical
and the proposed state is rejected. -/
def drm_atomic_crtc_check (dev : Device) (i : Nat) (cs : CrtcState) : Option Errno :=
  if cs.active && !cs.enable then some Errno.EINVAL
  else if dev.atomicDriver && (cs.enable && cs.modeBlob.isNone) then some Errno.EINVAL
  else if dev.atomicDriver && (!cs.enable && cs.modeBlob.isSome) then some Errno.EINVAL
  else if cs.event.isSome && !cs.active && !dev.crtcCurActive i then some Errno.EINVAL
  else none

/-- Walk of for_each_plane_in_state inside drm_atomic_check_only: apply the
core plane check to every populated slot, first failure wins. -/
def check_planes (dev : Device) : Nat → List PlaneEntry → Option Errno
  | _, [] => none
  | i, e :: rest =>
    match e.ptr, e.state with
    | true, some ps =>
      match drm_atomic_plane_check dev i ps with
      | some err => some err
      | none => check_planes dev (i + 1) rest
    | _, _ => check_planes dev (i + 1) rest

/-- Walk of for_each_crtc_in_state inside drm_atomic_check_only. -/
def check_crtcs (dev : Device) : Nat → List CrtcEntry → Option Errno
  | _, [] => none
  | i, e :: rest =>
    match e.ptr, e.state with
    | true, some cs =>
      match drm_atomic_crtc_check dev i cs with
      | some err => some err
      | none => check_crtcs dev (i + 1) rest
    | _, _ => check_crtcs dev (i + 1) rest

/-- drm_atomic_crtc_needs_modeset: mode_changed or active_changed. -/
def drm_atomic_crtc_needs_modeset (cs : CrtcState) : Bool :=
  cs.modeChanged || cs.activeChanged

/-- True when some populated CRTC slot needs a full modeset. -/
def any_crtc_needs_modeset (l : List CrtcEntry) : Bool :=
  l.any (fun e => e.ptr && (match e.state with
    | some cs => drm_atomic_crtc_needs_modeset cs
    | none => false))

/-- drm_atomic_check_only (source lines 1433-1481): per-plane checks, then
per-CRTC checks, then the external whole-transaction hook, then, when full
modesets are forbidden, rejection of any CRTC needing one. Returns the
verdict and the trace of external hook calls; the device canonical state is
not an input that can be written, only read. -/
def drm_atomic_check_only (env : Env) (dev : Device) (s : AtomicState) :
    Option Errno × List Ev :=
  match check_planes dev 0 s.planes with
  | some e => (some e, [])
  | none =>
    match check_crtcs dev 0 s.crtcs with
    | some e => (some e, [])
    | none =>
      let hook : Option Errno × List Ev :=
        match env.atomicCheck with
        | some f => (f dev s, [Ev.checkHook])
        | none => (none, [])
      match hook with
      | (some e, evs) => (some e, evs)
      | (none, evs) =>
        if !s.allowModeset && any_crtc_needs_modeset s.crtcs then (some Errno.EINVAL, evs)
        else (none, evs)

/-- drm_atomic_commit (source lines 1499-1512): validate via check-only and
only then hand the transaction to the external global commit hook with
nonblock false; on hook success the returned device is the new canonical
state and ownership of the transaction has transferred to the hook. -/
def drm_atomic_commit (env : Env) (dev : Device) (s : AtomicState) :
    Except Errno Device × List Ev :=
  match drm_atomic_check_only env dev s with
  | (some e, evs) => (Except.error e, evs)
  | (none, evs) => (env.atomicCommit dev s false, evs ++ [Ev.commitHook false])

/-- drm_atomic_nonblocking_commit (source lines 1530-1543): same funnel with
nonblock true. -/
def drm_atomic_nonblocking_commit (env : Env) (dev : Device) (s : AtomicState) :
    Except Errno Device × List Ev :=
  match drm_atomic_check_only env dev s with
  | (some e, evs) => (Except.error e, evs)
  | (none, evs) => (env.atomicCommit dev s true, evs ++ [Ev.commitHook true])

/-- Connector leg of drm_atomic_state_default_clear: destroy the snapshot of
every populated slot, drop the connector reference, reset the slot. The Nat
argument is the index of the head entry. -/
def clearConnList : Nat → List ConnEntry → List ConnEntry × List Ev
  | _, [] => ([], [])
  | i, e :: rest =>
    let r := clearConnList (i + 1) rest
    if e.ptr then
      ({ ptr := false, state := none } :: r.1, Ev.destroyConn i :: Ev.connUnref i :: r.2)
    else (e :: r.1, r.2)

/-- CRTC leg of drm_atomic_state_default_clear: destroy the snapshot, free
the commit record's event if present, put the commit record, reset ptr,
state and commit (the out-fence pointer field is not touched by the C
code). -/
def commitClearEvs (i : Nat) (commit : Option CommitRec) : List Ev :=
  match commit with
  | some c => (if c.hasEvent then [Ev.freeCommitEvent i] else []) ++ [Ev.commitPut i]
  | none => []

def clearCrtcList : Nat → List CrtcEntry → List CrtcEntry × List Ev
  | _, [] => ([], [])
  | i, e :: rest =>
    let r := clearCrtcList (i + 1) rest
    if e.ptr then
      ({ e with ptr := false, state := none, commit := none } :: r.1,
        Ev.destroyCrtc i :: (commitClearEvs i e.commit ++ r.2))
    else (e :: r.1, r.2)

/-- Plane leg of drm_atomic_state_default_clear. -/
def clearPlaneList : Nat → List PlaneEntry → List PlaneEntry × List Ev
  | _, [] => ([], [])
  | i, e :: rest =>
    let r := clearPlaneList (i + 1) rest
    if e.ptr then
      ({ ptr := false, state := none } :: r.1, Ev.destroyPlane i :: r.2)
    else (e :: r.1, r.2)

/-- drm_atomic_state_default_clear (source lines 139-192): walk the
connector, CRTC and plane tables in that order, destroying every populated
snapshot through the external hook and resetting the slots. The acquire
context (held) is not touched. -/
def drm_atomic_state_default_clear (s : AtomicState) : AtomicState × List Ev :=
  let rc := clearConnList 0 s.connectors
  let rk := clearCrtcList 0 s.crtcs
  let rp := clearPlaneList 0 s.planes
  ({ s with connectors := rc.1, crtcs := rk.1, planes := rp.1 }, rc.2 ++ rk.2 ++ rp.2)

/-- struct drm_out_fence_state: the out-fence bookkeeping the ioctl keeps
per requested fence. -/
structure OutFenceState where
  outFencePtr : Nat
  fd : Option Nat
  syncFile : Bool
deriving DecidableEq

/-- The DRM_MODE_ATOMIC flag bits of the ioctl argument. -/
structure IoctlFlags where
  testOnly : Bool
  nonblock : Bool
  allowModeset : Bool
  pageFlipEvent : Bool
  asyncFlip : Bool
deriving DecidableEq

/-- The ioctl argument after user-copy: the flags and the object/property
value triples grouped by object (raw object and property ids). -/
structure IoctlArg where
  flags : IoctlFlags
  objs : List (Nat × List (Nat × Nat))

/-- atomic_set_prop (source lines 1565-1625): validate the value against the
property, then get-or-create the object's state and dispatch the per-kind
set-property routine. -/
def atomic_set_prop (env : Env) (dev : Device) (s : AtomicState) (obj : ObjRef)
    (prop : PropId) (val : Nat) : Except Errno Unit × AtomicState × List Ev :=
  if !env.propChangeValid prop val then (Except.error Errno.EINVAL, s, [])
  else
    match obj with
    | ObjRef.connector ci =>
      match drm_atomic_get_connector_state env dev s ci with
      | (Except.error e, s1, evs) => (Except.error e, s1, evs)
      | (Except.ok _, s1, evs) =>
        let (r, s2, evs2) := drm_atomic_connector_set_property env s1 ci prop val
        (r, s2, evs ++ evs2)
    | ObjRef.crtc i =>
      match drm_atomic_get_crtc_state env s i with
      | (Except.error e, s1, evs) => (Except.error e, s1, evs)
      | (Except.ok _, s1, evs) =>
        let (r, s2) := drm_atomic_crtc_set_property env s1 i prop val
        (r, s2, evs)
    | ObjRef.plane pi =>
      match drm_atomic_get_plane_state env s pi with
      | (Except.error e, s1, evs) => (Except.error e, s1, evs)
      | (Except.ok _, s1, evs) =>
        let (r, s2, evs2) := drm_atomic_plane_set_property env s1 pi prop val
        (r, s2, evs ++ evs2)
    | ObjRef.other => (Except.error Errno.EINVAL, s, [])

/-- Inner property loop of the ioctl for one object: resolve each raw
property id (ENOENT on a miss) and apply atomic_set_prop, aborting on the
first failure. -/
def processProps (env : Env) (dev : Device) (obj : ObjRef) :
    AtomicState → List (Nat × Nat) → Option Errno × AtomicState × List Ev
  | s, [] => (none, s, [])
  | s, (propRaw, val) :: rest =>
    match env.lookupProp obj propRaw with
    | none => (some Errno.ENOENT, s, [])
    | some prop =>
      match atomic_set_prop env dev s obj prop val with
      | (Except.error e, s1, evs) => (some e, s1, evs)
      | (Except.ok _, s1, evs) =>
        let (r, s2, evs2) := processProps env dev obj s1 rest
        (r, s2, evs ++ evs2)

/-- Outer object loop of the ioctl: resolve each raw object id (ENOENT on a
miss or on an object without properties) and run its property list. -/
def processObjs (env : Env) (dev : Device) :
    AtomicState → List (Nat × List (Nat × Nat)) → Option Errno × AtomicState × List Ev
  | s, [] => (none, s, [])
  | s, (objId, props) :: rest =>
    match env.findObj objId with
    | none => (some Errno.ENOENT, s, [])
    | some obj =>
      if !env.objHasProps obj then (some Errno.ENOENT, s, [])
      else
        match processProps env dev obj s props with
        | (some e, s1, evs) => (some e, s1, evs)
        | (none, s1, evs) =>
          let (r, s2, evs2) := processObjs env dev s1 rest
          (r, s2, evs ++ evs2)

/-- setup_out_fence (source lines 1724-1739): allocate an fd (the fd slot is
filled before the user copy, so cleanup can see it), write it to the user
pointer, create the sync file. -/
def setup_out_fence (env : Env) (f : OutFenceState) :
    Except Errno Unit × OutFenceState :=
  match env.getUnusedFd with
  | Except.error e => (Except.error e, f)
  | Except.ok fd =>
    let f1 := { f with fd := some fd }
    if !env.putUserOk f.outFencePtr then (Except.error Errno.EFAULT, f1)
    else if env.syncFileCreateOk then (Except.ok (), { f1 with syncFile := true })
    else (Except.error Errno.ENOMEM, f1)

/-- One CRTC's leg of prepare_crtc_signaling (source lines 1741-1814):
consume the out-fence pointer, allocate the completion event when the
page-flip-event flag or an out-fence asks for one, reserve the event file
slot, and set up the out fence, growing the fence array first. -/
def prepare_one (env : Env) (pageFlipEvent filePriv : Bool) (s : AtomicState) (i : Nat)
    (fences : List OutFenceState) :
    Except Errno Unit × AtomicState × List OutFenceState :=
  let fencePtr := (getCrtcEntry s i).outFencePtr
  let s0 :=
    match s.crtcs[i]? with
    | some e => { s with crtcs := s.crtcs.set i { e with outFencePtr := none } }
    | none => s
  match
    (if pageFlipEvent || fencePtr.isSome then
      if env.allocEventOk then
        Except.ok (updateCrtcState s0 i
          (fun cs => { cs with event := some { hasFence := false, hasFilePriv := false } }))
      else Except.error Errno.ENOMEM
    else Except.ok s0 : Except Errno AtomicState)
  with
  | Except.error e => (Except.error e, s0, fences)
  | Except.ok s1 =>
    if pageFlipEvent && !filePriv then (Except.ok (), s1, fences)
    else
      match
        (if pageFlipEvent then
          match env.eventReserveErr with
          | some e2 =>
            Except.error (e2, updateCrtcState s1 i (fun cs => { cs with event := none }))
          | none =>
            Except.ok (updateCrtcState s1 i
              (fun cs => { cs with event := (cs.event.map
                (fun ev => { ev with hasFilePriv := true })) }))
        else Except.ok s1 : Except (Errno × AtomicState) AtomicState)
      with
      | Except.error (e, s2) => (Except.error e, s2, fences)
      | Except.ok s2 =>
        match fencePtr with
        | none => (Except.ok (), s2, fences)
        | some p =>
          if !env.growFenceOk then (Except.error Errno.ENOMEM, s2, fences)
          else
            let f0 : OutFenceState := { outFencePtr := p, fd := none, syncFile := false }
            if !env.createFenceOk then (Except.error Errno.ENOMEM, s2, fences ++ [f0])
            else
              match setup_out_fence env f0 with
              | (Except.error e, f1) => (Except.error e, s2, fences ++ [f1])
              | (Except.ok _, f1) =>
                (Except.ok (),
                 updateCrtcState s2 i
                   (fun cs => { cs with event := (cs.event.map
                     (fun ev => { ev with hasFence := true })) }),
                 fences ++ [f1])

/-- Walk of prepare_crtc_signaling over the populated CRTC slots. -/
def prepare_list (env : Env) (pageFlipEvent filePriv : Bool) :
    List Nat → AtomicState → List OutFenceState →
    Except Errno Unit × AtomicState × List OutFenceState
  | [], s, fences => (Except.ok (), s, fences)
  | i :: rest, s, fences =>
    if (getCrtcEntry s i).ptr then
      match prepare_one env pageFlipEvent filePriv s i fences with
      | (Except.error e, s1, fences1) => (Except.error e, s1, fences1)
      | (Except.ok _, s1, fences1) => prepare_list env pageFlipEvent filePriv rest s1 fences1
    else prepare_list env pageFlipEvent filePriv rest s fences

/-- prepare_crtc_signaling (source lines 1741-1814): nothing to do on a
test-only commit, otherwise walk every populated CRTC. -/
def prepare_crtc_signaling (env : Env) (flags : IoctlFlags) (filePriv : Bool)
    (s : AtomicState) : Except Errno Unit × AtomicState × List OutFenceState :=
  if flags.testOnly then (Except.ok (), s, [])
  else prepare_list env flags.pageFlipEvent filePriv (List.range s.crtcs.length) s []

/-- Cancellation walk of complete_crtc_signaling on the failure path: free
the events this ioctl allocated (those carrying a fence or a file
reservation). -/
def cancel_events : Nat → List CrtcEntry → List CrtcEntry × List Ev
  | _, [] => ([], [])
  | i, e :: rest =>
    let (rest2, evs) := cancel_events (i + 1) rest
    match e.ptr, e.state with
    | true, some cs =>
      match cs.event with
      | some ev =>
        if ev.hasFence || ev.hasFilePriv then
          ({ e with state := some { cs with event := none } } :: rest2, Ev.eventCancel i :: evs)
        else (e :: rest2, evs)
      | none => (e :: rest2, evs)
    | _, _ => (e :: rest2, evs)

/-- complete_crtc_signaling (source lines 1816-1864): on success install the
fence fds; on failure cancel the allocated events and release the fence
bookkeeping (the fd/file release and the user-pointer reset carry no state
in this embedding and are not traced). -/
def complete_crtc_signaling (s : AtomicState) (fences : List OutFenceState)
    (install : Bool) : AtomicState × List Ev :=
  if install then (s, fences.filterMap (fun f => Option.map Ev.fdInstall f.fd))
  else
    let (kl, evs) := cancel_events 0 s.crtcs
    ({ s with crtcs := kl }, evs)

/-- Result of the atomic ioctl: the returned code, the device canonical
state after the call, whether the transaction was torn down (versus handed
to the commit hook), and the full hook trace. -/
structure IoctlRes where
  ret : Option Errno
  dev : Device
  freed : Bool
  trace : List Ev

/-- One pass of the ioctl body from the retry label through the
check-or-commit choice and the out label's signaling completion (the legacy
plane->fb pointer fixup of drm_atomic_clean_old_fb touches only legacy
device pointers and is omitted). -/
def ioctl_round (env : Env) (arg : IoctlArg) (filePriv : Bool) (dev : Device)
    (s : AtomicState) : Option Errno × Device × AtomicState × List Ev :=
  match processObjs env dev s arg.objs with
  | (some e, s1, evs0) =>
    let (s2, evsC) := complete_crtc_signaling s1 [] false
    (some e, dev, s2, evs0 ++ evsC)
  | (none, s1, evs0) =>
    match prepare_crtc_signaling env arg.flags filePriv s1 with
    | (Except.error e, s2, fences) =>
      let (s3, evsC) := complete_crtc_signaling s2 fences false
      (some e, dev, s3, evs0 ++ evsC)
    | (Except.ok _, s2, fences) =>
      let step : Option Errno × Device × List Ev :=
        if arg.flags.testOnly then
          let (r, evs) := drm_atomic_check_only env dev s2
          (r, dev, evs)
        else if arg.flags.nonblock then
          match drm_atomic_nonblocking_commit env dev s2 with
          | (Except.ok d2, evs) => (none, d2, evs)
          | (Except.error e, evs) => (some e, dev, evs)
        else
          match drm_atomic_commit env dev s2 with
          | (Except.ok d2, evs) => (none, d2, evs)
          | (Except.error e, evs) => (some e, dev, evs)
      let (s3, evsC) := complete_crtc_signaling s2 fences (step.1 = none)
      (step.1, step.2.1, s3, evs0 ++ step.2.2 ++ evsC)

/-- Teardown-or-handoff tail of the ioctl (source lines 2033-2039): on any
error, and on test-only success, drm_atomic_state_free tears the
transaction down (clear plus container release); on commit success
ownership has transferred to the commit hook and nothing is freed here. -/
def ioctl_finish (arg : IoctlArg) (ret : Option Errno) (dev : Device) (s : AtomicState)
    (evs : List Ev) : IoctlRes :=
  match ret with
  | some e =>
    let (_, evs2) := drm_atomic_state_default_clear s
    { ret := some e, dev := dev, freed := true, trace := evs ++ evs2 }
  | none =>
    if arg.flags.testOnly then
      let (_, evs2) := drm_atomic_state_default_clear s
      { ret := none, dev := dev, freed := true, trace := evs ++ evs2 }
    else { ret := none, dev := dev, freed := false, trace := evs }

/-- The retry loop of drm_mode_atomic_ioctl (source lines 1925-2040): run
one pass; on EDEADLK clear the whole transaction, back off the acquire
context and start over; on any other outcome finish. The fuel bounds the
number of retries (the C loop retries until the contention resolves); the
fuel-exhausted arm finishes without retrying. -/
def drm_mode_atomic_ioctl_loop (env : Env) (arg : IoctlArg) (filePriv : Bool) :
    Nat → Device → AtomicState → IoctlRes
  | 0, dev, s =>
    let (ret, dev2, s2, evs) := ioctl_round env arg filePriv dev s
    ioctl_finish arg ret dev2 s2 evs
  | fuel + 1, dev, s =>
    let (ret, dev2, s2, evs) := ioctl_round env arg filePriv dev s
    if ret = some Errno.EDEADLK then
      let (s3, evs3) := drm_atomic_state_default_clear s2
      let r := drm_mode_atomic_ioctl_loop env arg filePriv fuel dev2
        { s3 with held := env.backoff s3.held }
      { r with trace := evs ++ evs3 ++ r.trace }
    else ioctl_finish arg ret dev2 s2 evs

/-- drm_atomic_state_init (source lines 77-103): fixed-size CRTC and plane
tables sized to the device counts, no connector table yet, allow_modeset
defaulting to true. -/
def drm_atomic_state_init (dev : Device) : AtomicState :=
  { crtcs := List.replicate dev.numCrtc emptyCrtcEntry,
    planes := List.replicate dev.numPlane emptyPlaneEntry,
    connectors := [],
    held := [],
    allowModeset := true }

/-- drm_mode_atomic_ioctl (source lines 1866-2040): argument validation,
transaction allocation and the retry loop. The CPU/devfreq boost kick is a
scheduling side effect outside this engine and is not modelled. -/
def drm_mode_atomic_ioctl (env : Env) (dev : Device) (arg : IoctlArg)
    (filePrivAtomic : Bool) (fuel : Nat) : IoctlRes :=
  if !dev.atomicDriver then { ret := some Errno.EINVAL, dev := dev, freed := true, trace := [] }
  else if !filePrivAtomic then
    { ret := some Errno.EINVAL, dev := dev, freed := true, trace := [] }
  else if arg.flags.asyncFlip && !dev.asyncPageFlip then
    { ret := some Errno.EINVAL, dev := dev, freed := true, trace := [] }
  else if arg.flags.testOnly && arg.flags.pageFlipEvent then
    { ret := some Errno.EINVAL, dev := dev, freed := true, trace := [] }
  else if !env.stateAllocOk then
    { ret := some Errno.ENOMEM, dev := dev, freed := true, trace := [] }
  else
    drm_mode_atomic_ioctl_loop env arg true fuel dev
      { drm_atomic_state_init dev with allowModeset := arg.flags.allowModeset }

/-- A quiescent CRTC snapshot, as the duplicate hook of a disabled CRTC
would return it. -/
def crtcState0 : CrtcState :=
  { enable := false, active := false, modeBlob := none, degammaLut := none,
    ctm := none, gammaLut := none, colorMgmtChanged := false, planeMask := 0,
    connectorMask := 0, event := none, modeChanged := false, activeChanged := false }

/-- A quiescent plane snapshot. -/
def planeState0 : PlaneState :=
  { crtc := none, fb := none, fence := none, crtc_x := 0, crtc_y := 0,
    crtc_w := 0, crtc_h := 0, src_x := 0, src_y := 0, src_w := 0, src_h := 0,
    rot := 0, zpos := 0 }

/-- A quiescent connector snapshot. -/
def connState0 : ConnState := { crtc := none }

/-- A two-CRTC, two-plane, one-connector atomic-capable device. -/
def dev0 : Device :=
  { numCrtc := 2, numPlane := 2, numConnector := 1,
    crtcCurActive := fun _ => false, planeCurCrtc := fun _ => none,
    possibleCrtcs := fun _ => 3, planeFormatOk := fun _ _ => true,
    atomicDriver := true, asyncPageFlip := false }

/-- A benign environment: locks succeed, duplication succeeds with the
quiescent snapshots, allocations succeed, lookups miss, the global check
hook is absent and the commit hook accepts leaving the device unchanged. -/
def env0 : Env :=
  { lockOk := fun _ => true,
    dupCrtc := fun _ => some crtcState0,
    dupPlane := fun _ => some planeState0,
    dupConn := fun _ => some connState0,
    connGrowOk := fun _ => true,
    lookupBlob := fun _ => none,
    lookupFb := fun _ => none,
    findCrtc := fun _ => none,
    syncFileFence := fun _ => none,
    putUserOk := fun _ => true,
    crtcDriverSet := none,
    planeDriverSet := none,
    connDriverSet := none,
    atomicCheck := none,
    atomicCommit := fun d _ _ => Except.ok d,
    allocEventOk := true,
    eventReserveErr := none,
    growFenceOk := true,
    createFenceOk := true,
    getUnusedFd := Except.ok 5,
    syncFileCreateOk := true,
    backoff := fun h => h,
    findObj := fun _ => none,
    objHasProps := fun _ => true,
    lookupProp := fun _ _ => none,
    propChangeValid := fun _ _ => true,
    stateAllocOk := true }

/-- The empty transaction over dev0. -/
def state0 : AtomicState := drm_atomic_state_init dev0

/-- A plain blocking commit flag set. -/
def flagsE : IoctlFlags :=
  { testOnly := false, nonblock := false, allowModeset := true,
    pageFlipEvent := false, asyncFlip := false }

/-- An ioctl argument naming one object that the lookup oracle misses. -/
def argE : IoctlArg := { flags := flagsE, objs := [(99, [(0, 0)])] }

/-- Whether a CRTC's slot in the transaction holds a duplicated snapshot. -/
def crtcStateSet (s : AtomicState) (c : Nat) : Bool :=
  (drm_atomic_get_existing_crtc_state s c).isSome

/-- The linking invariant for one plane slot: when populated and its
snapshot references a CRTC, that CRTC's slot is populated too. -/
def planeEntryCrtcLinked (s : AtomicState) (i : Nat) : Bool :=
  match drm_atomic_get_existing_plane_state s i with
  | some ps =>
    match ps.crtc with
    | some c => crtcStateSet s c
    | none => true
  | none => true

/-- The linking invariant for one connector slot. -/
def connEntryCrtcLinked (s : AtomicState) (i : Nat) : Bool :=
  match drm_atomic_get_existing_connector_state s i with
  | some cs =>
    match cs.crtc with
    | some c => crtcStateSet s c
    | none => true
  | none => true

/-- Device consistency of the plane duplicate hook: a duplicated plane
state references a CRTC index inside the transaction's CRTC table. -/
def dupPlaneCrtcInRange (env : Env) (s : AtomicState) (i : Nat) : Bool :=
  match env.dupPlane i with
  | some ps =>
    match ps.crtc with
    | some c => decide (c < s.crtcs.length)
    | none => true
  | none => true

/-- Device consistency of the connector duplicate hook. -/
def dupConnCrtcInRange (env : Env) (s : AtomicState) (i : Nat) : Bool :=
  match env.dupConn i with
  | some cs =>
    match cs.crtc with
    | some c => decide (c < s.crtcs.length)
    | none => true
  | none => true

/-- A transaction over dev0 with plane 0 already populated. -/
def statePl0 : AtomicState := putPlaneState state0 0 planeState0

def crtcEntryPopulated (s : AtomicState) (i : Nat) : Bool :=
  ((s.crtcs[i]?).map CrtcEntry.ptr).getD false

def planeEntryPopulated (s : AtomicState) (i : Nat) : Bool :=
  ((s.planes[i]?).map PlaneEntry.ptr).getD false

def connEntryPopulated (s : AtomicState) (i : Nat) : Bool :=
  ((s.connectors[i]?).map ConnEntry.ptr).getD false

/-- A transaction over dev0 with one populated plane, CRTC and connector
slot each. -/
def stateFull0 : AtomicState :=
  putConnState (putCrtcState statePl0 0 crtcState0) 0 connState0

/-- N successive check-only verdicts on a fixed transaction and device. -/
def checkOnlyRuns (env : Env) (dev : Device) (s : AtomicState) : Nat → List (Option Errno)
  | 0 => []
  | n + 1 => (drm_atomic_check_only env dev s).1 :: checkOnlyRuns env dev s n

/-- Containment of the source rectangle in the framebuffer, written from
the spec's words in exact (unbounded) arithmetic: the 16.16 fixed-point
rectangle lies fully within the framebuffer's pixel dimensions. This is
the refinement-side definition to compare against the source's check. -/
def src_contained (fb : Fb) (ps : PlaneState) : Bool :=
  decide (ps.src_x + ps.src_w ≤ fb.width * 65536) &&
  decide (ps.src_y + ps.src_h ≤ fb.height * 65536)

def nonDestroyEv : Ev → Bool
  | Ev.destroyCrtc _ => false
  | Ev.destroyPlane _ => false
  | Ev.destroyConn _ => false
  | _ => true

def noDestroy (evs : List Ev) : Bool := evs.all nonDestroyEv

/-! Helper lemmas: frame properties of the lock and get-state operations. -/

theorem drm_modeset_lock_snd (env : Env) (s : AtomicState) (l : LockId) :
    (drm_modeset_lock env s l).2 = s ∨
    (drm_modeset_lock env s l).2 = { s with held := l :: s.held } := by
  unfold drm_modeset_lock
  split_ifs <;> simp

theorem drm_modeset_lock_ok_held (env : Env) (s : AtomicState) (l : LockId)
    (h : (drm_modeset_lock env s l).1 = Except.ok ()) :
    l ∈ ((drm_modeset_lock env s l).2).held := by
  unfold drm_modeset_lock at h ⊢
  split_ifs at h ⊢ with h1 h2 <;> simp_all

theorem get_crtc_state_frame (env : Env) (s : AtomicState) (i : Nat) :
    ((drm_atomic_get_crtc_state env s i).2.1).planes = s.planes ∧
    ((drm_atomic_get_crtc_state env s i).2.1).connectors = s.connectors ∧
    ((drm_atomic_get_crtc_state env s i).2.1).allowModeset = s.allowModeset ∧
    ((drm_atomic_get_crtc_state env s i).2.1).crtcs.length = s.crtcs.length ∧
    (∀ j, j ≠ i → ((drm_atomic_get_crtc_state env s i).2.1).crtcs[j]? = s.crtcs[j]?) ∧
    (∀ k ∈ s.held, k ∈ ((drm_atomic_get_crtc_state env s i).2.1).held) := by
  unfold drm_atomic_get_crtc_state
  cases h1 : drm_atomic_get_existing_crtc_state s i with
  | some cs => simp
  | none =>
    cases h2 : drm_modeset_lock env s (LockId.crtc i) with
    | mk r s1 =>
      have hL : s1 = s ∨ s1 = { s with held := LockId.crtc i :: s.held } := by
        have hd := drm_modeset_lock_snd env s (LockId.crtc i)
        rw [h2] at hd
        simpa using hd
      cases r with
      | error e =>
        rcases hL with h | h <;> subst h <;> dsimp only <;>
          exact ⟨rfl, rfl, rfl, rfl, fun j hj => rfl, fun k hk => by simp [hk]⟩
      | ok u =>
        cases h3 : env.dupCrtc i with
        | none =>
          rcases hL with h | h <;> subst h <;> dsimp only <;>
            exact ⟨rfl, rfl, rfl, rfl, fun j hj => rfl, fun k hk => by simp [hk]⟩
        | some cs =>
          rcases hL with h | h <;> subst h <;> dsimp only [putCrtcState, getCrtcEntry] <;>
            exact ⟨rfl, rfl, rfl, by simp,
              fun j hj => by simp [List.getElem?_set_ne (Ne.symm hj)],
              fun k hk => by simp [hk]⟩

theorem get_crtc_state_existing (env : Env) (s : AtomicState) (i : Nat) (cs : CrtcState)
    (h : drm_atomic_get_existing_crtc_state s i = some cs) :
    drm_atomic_get_crtc_state env s i = (Except.ok cs, s, []) := by
  unfold drm_atomic_get_crtc_state
  rw [h]

theorem get_crtc_state_ok_stored (env : Env) (s : AtomicState) (i : Nat)
    (cs : CrtcState) (s2 : AtomicState) (evs : List Ev) (hlen : i < s.crtcs.length)
    (h : drm_atomic_get_crtc_state env s i = (Except.ok cs, s2, evs)) :
    drm_atomic_get_existing_crtc_state s2 i = some cs := by
  unfold drm_atomic_get_crtc_state at h
  cases h1 : drm_atomic_get_existing_crtc_state s i with
  | some cs0 =>
    rw [h1] at h
    simp only [Prod.mk.injEq, Except.ok.injEq] at h
    obtain ⟨hcs, hs2, hevs⟩ := h
    subst hcs; subst hs2; exact h1
  | none =>
    rw [h1] at h
    cases h2 : drm_modeset_lock env s (LockId.crtc i) with
    | mk r s1 =>
      rw [h2] at h
      have hL : s1 = s ∨ s1 = { s with held := LockId.crtc i :: s.held } := by
        have hd := drm_modeset_lock_snd env s (LockId.crtc i)
        rw [h2] at hd
        simpa using hd
      cases r with
      | error e => simp at h
      | ok u =>
        cases h3 : env.dupCrtc i with
        | none => rw [h3] at h; simp at h
        | some cs0 =>
          rw [h3] at h
          simp only [Prod.mk.injEq, Except.ok.injEq] at h
          obtain ⟨hcs, hs2, hevs⟩ := h
          subst hcs; subst hs2
          have hlen1 : i < s1.crtcs.length := by
            rcases hL with h | h <;> subst h <;> simpa using hlen
          simp [drm_atomic_get_existing_crtc_state, getCrtcEntry, putCrtcState,
            List.getElem?_set_self, hlen1]

theorem get_crtc_state_trace (env : Env) (s : AtomicState) (i : Nat) :
    (drm_atomic_get_crtc_state env s i).2.2 = [] ∨
    (drm_atomic_get_crtc_state env s i).2.2 = [Ev.dupCrtc i] := by
  unfold drm_atomic_get_crtc_state
  cases h1 : drm_atomic_get_existing_crtc_state s i with
  | some cs => simp
  | none =>
    cases h2 : drm_modeset_lock env s (LockId.crtc i) with
    | mk r s1 =>
      cases r with
      | error e => simp
      | ok u => cases h3 : env.dupCrtc i <;> simp

theorem get_plane_state_frame (env : Env) (s : AtomicState) (i : Nat) :
    ((drm_atomic_get_plane_state env s i).2.1).connectors = s.connectors ∧
    ((drm_atomic_get_plane_state env s i).2.1).allowModeset = s.allowModeset ∧
    ((drm_atomic_get_plane_state env s i).2.1).planes.length = s.planes.length ∧
    ((drm_atomic_get_plane_state env s i).2.1).crtcs.length = s.crtcs.length ∧
    (∀ j, j ≠ i → ((drm_atomic_get_plane_state env s i).2.1).planes[j]? = s.planes[j]?) ∧
    (∀ k ∈ s.held, k ∈ ((drm_atomic_get_plane_state env s i).2.1).held) := by
  unfold drm_atomic_get_plane_state
  cases h1 : drm_atomic_get_existing_plane_state s i with
  | some ps => simp
  | none =>
    cases h2 : drm_modeset_lock env s (LockId.plane i) with
    | mk r s1 =>
      have hL : s1 = s ∨ s1 = { s with held := LockId.plane i :: s.held } := by
        have hd := drm_modeset_lock_snd env s (LockId.plane i)
        rw [h2] at hd
        simpa using hd
      have hC : s1.crtcs = s.crtcs := by rcases hL with h | h <;> rw [h]
      have hP : s1.planes = s.planes := by rcases hL with h | h <;> rw [h]
      have hCo : s1.connectors = s.connectors := by rcases hL with h | h <;> rw [h]
      have hA : s1.allowModeset = s.allowModeset := by rcases hL with h | h <;> rw [h]
      have hH : ∀ k ∈ s.held, k ∈ s1.held := by
        rcases hL with h | h <;> rw [h] <;> intro k hk <;> simp [hk]
      cases r with
      | error e =>
        exact ⟨hCo, hA, congrArg List.length hP, congrArg List.length hC,
          fun j hj => congrArg (fun l => l[j]?) hP, hH⟩
      | ok u =>
        cases h3 : env.dupPlane i with
        | none =>
          exact ⟨hCo, hA, congrArg List.length hP, congrArg List.length hC,
            fun j hj => congrArg (fun l => l[j]?) hP, hH⟩
        | some ps =>
          have hq1 : (putPlaneState s1 i ps).connectors = s.connectors := by
            simpa [putPlaneState] using hCo
          have hq2 : (putPlaneState s1 i ps).allowModeset = s.allowModeset := by
            simpa [putPlaneState] using hA
          have hq3 : (putPlaneState s1 i ps).planes.length = s.planes.length := by
            simp [putPlaneState, hP]
          have hq4 : (putPlaneState s1 i ps).crtcs.length = s.crtcs.length := by
            simpa [putPlaneState] using congrArg List.length hC
          have hq5 : ∀ j, j ≠ i → (putPlaneState s1 i ps).planes[j]? = s.planes[j]? := by
            intro j hj
            simp [putPlaneState, List.getElem?_set_ne (Ne.symm hj), hP]
          have hq6 : ∀ k ∈ s.held, k ∈ (putPlaneState s1 i ps).held := by
            intro k hk
            simpa [putPlaneState] using hH k hk
          dsimp only
          cases hps : ps.crtc with
          | none => exact ⟨hq1, hq2, hq3, hq4, hq5, hq6⟩
          | some c =>
            dsimp only
            cases h4 : drm_atomic_get_crtc_state env (putPlaneState s1 i ps) c with
            | mk r2 rest =>
              obtain ⟨s3, evs⟩ := rest
              have hcf := get_crtc_state_frame env (putPlaneState s1 i ps) c
              rw [h4] at hcf
              obtain ⟨hw1, hw2, hw3, hw4, hw5, hw6⟩ := hcf
              cases r2 with
              | error e =>
                exact ⟨hw2.trans hq1, hw3.trans hq2,
                  (congrArg List.length hw1).trans hq3, hw4.trans hq4,
                  fun j hj => (congrArg (fun l => l[j]?) hw1).trans (hq5 j hj),
                  fun k hk => hw6 k (hq6 k hk)⟩
              | ok cs2 =>
                exact ⟨hw2.trans hq1, hw3.trans hq2,
                  (congrArg List.length hw1).trans hq3, hw4.trans hq4,
                  fun j hj => (congrArg (fun l => l[j]?) hw1).trans (hq5 j hj),
                  fun k hk => hw6 k (hq6 k hk)⟩

theorem get_plane_state_existing (env : Env) (s : AtomicState) (i : Nat) (ps : PlaneState)
    (h : drm_atomic_get_existing_plane_state s i = some ps) :
    drm_atomic_get_plane_state env s i = (Except.ok ps, s, []) := by
  unfold drm_atomic_get_plane_state
  rw [h]

theorem get_plane_state_ok_stored (env : Env) (s : AtomicState) (i : Nat)
    (ps : PlaneState) (s2 : AtomicState) (evs : List Ev) (hlen : i < s.planes.length)
    (h : drm_atomic_get_plane_state env s i = (Except.ok ps, s2, evs)) :
    drm_atomic_get_existing_plane_state s2 i = some ps := by
  unfold drm_atomic_get_plane_state at h
  cases h1 : drm_atomic_get_existing_plane_state s i with
  | some ps0 =>
    rw [h1] at h
    simp only [Prod.mk.injEq, Except.ok.injEq] at h
    obtain ⟨hps, hs2, hevs⟩ := h
    subst hps; subst hs2; exact h1
  | none =>
    rw [h1] at h
    cases h2 : drm_modeset_lock env s (LockId.plane i) with
    | mk r s1 =>
      rw [h2] at h
      have hL : s1 = s ∨ s1 = { s with held := LockId.plane i :: s.held } := by
        have hd := drm_modeset_lock_snd env s (LockId.plane i)
        rw [h2] at hd
        simpa using hd
      have hP : s1.planes = s.planes := by rcases hL with hx | hx <;> rw [hx]
      cases r with
      | error e => simp at h
      | ok u =>
        cases h3 : env.dupPlane i with
        | none => rw [h3] at h; simp at h
        | some ps0 =>
          rw [h3] at h
          have hlen1 : i < s1.planes.length := by rw [hP]; exact hlen
          have hstored : drm_atomic_get_existing_plane_state (putPlaneState s1 i ps0) i
              = some ps0 := by
            simp [drm_atomic_get_existing_plane_state, getPlaneEntry, putPlaneState,
              List.getElem?_set_self, hlen1]
          dsimp only at h
          cases hps0 : ps0.crtc with
          | none =>
            rw [hps0] at h
            simp only [Prod.mk.injEq, Except.ok.injEq] at h
            obtain ⟨hps, hs2, hevs⟩ := h
            subst hps; subst hs2; exact hstored
          | some c =>
            rw [hps0] at h
            dsimp only at h
            cases h4 : drm_atomic_get_crtc_state env (putPlaneState s1 i ps0) c with
            | mk r2 rest =>
              obtain ⟨s3, evs2⟩ := rest
              rw [h4] at h
              have hcf := get_crtc_state_frame env (putPlaneState s1 i ps0) c
              rw [h4] at hcf
              cases r2 with
              | error e => simp at h
              | ok cs2 =>
                simp only [Prod.mk.injEq, Except.ok.injEq] at h
                obtain ⟨hps, hs2, hevs⟩ := h
                subst hps; subst hs2
                have hpl : s3.planes = (putPlaneState s1 i ps0).planes := hcf.1
                unfold drm_atomic_get_existing_plane_state getPlaneEntry at hstored ⊢
                rw [hpl]
                exact hstored

theorem get_plane_state_dup_count (env : Env) (s : AtomicState) (i : Nat) :
    ((drm_atomic_get_plane_state env s i).2.2).count (Ev.dupPlane i) ≤ 1 := by
  unfold drm_atomic_get_plane_state
  cases h1 : drm_atomic_get_existing_plane_state s i with
  | some ps => simp
  | none =>
    cases h2 : drm_modeset_lock env s (LockId.plane i) with
    | mk r s1 =>
      cases r with
      | error e => simp
      | ok u =>
        cases h3 : env.dupPlane i with
        | none => simp
        | some ps =>
          dsimp only
          cases hps : ps.crtc with
          | none => simp
          | some c =>
            dsimp only
            cases h4 : drm_atomic_get_crtc_state env (putPlaneState s1 i ps) c with
            | mk r2 rest =>
              obtain ⟨s3, evs2⟩ := rest
              have htr := get_crtc_state_trace env (putPlaneState s1 i ps) c
              rw [h4] at htr
              cases r2 with
              | error e =>
                rcases htr with hx | hx <;> simp at hx <;> subst hx <;> simp [List.count_cons]
              | ok cs2 =>
                rcases htr with hx | hx <;> simp at hx <;> subst hx <;> simp [List.count_cons]

theorem conn_tail_ok (env : Env) (t : AtomicState) (i : Nat) (cs : ConnState)
    (s2 : AtomicState) (evs : List Ev) (hlen : i < t.connectors.length)
    (h : drm_atomic_get_connector_state_tail env t i = (Except.ok cs, s2, evs)) :
    drm_atomic_get_existing_connector_state s2 i = some cs ∧
    s2.connectors.length = t.connectors.length ∧
    (∀ k ∈ t.held, k ∈ s2.held) ∧
    evs.count (Ev.dupConn i) ≤ 1 := by
  unfold drm_atomic_get_connector_state_tail at h
  cases h1 : drm_atomic_get_existing_connector_state t i with
  | some cs0 =>
    rw [h1] at h
    simp only [Prod.mk.injEq, Except.ok.injEq] at h
    obtain ⟨hcs, hs2, hevs⟩ := h
    subst hcs; subst hs2; subst hevs
    exact ⟨h1, rfl, fun k hk => hk, by simp⟩
  | none =>
    rw [h1] at h
    cases h3 : env.dupConn i with
    | none => rw [h3] at h; simp at h
    | some cs0 =>
      rw [h3] at h
      dsimp only at h
      have hstored : drm_atomic_get_existing_connector_state (putConnState t i cs0) i
          = some cs0 := by
        simp [drm_atomic_get_existing_connector_state, getConnEntry, putConnState,
          List.getElem?_set_self, hlen]
      have hplen : (putConnState t i cs0).connectors.length = t.connectors.length := by
        simp [putConnState]
      have hpheld : ∀ k ∈ t.held, k ∈ (putConnState t i cs0).held := fun k hk => hk
      cases hc : cs0.crtc with
      | none =>
        rw [hc] at h
        simp only [Prod.mk.injEq, Except.ok.injEq] at h
        obtain ⟨hcs, hs2, hevs⟩ := h
        subst hcs; subst hs2; subst hevs
        exact ⟨hstored, hplen, hpheld, by simp⟩
      | some c =>
        rw [hc] at h
        dsimp only at h
        cases h4 : drm_atomic_get_crtc_state env (putConnState t i cs0) c with
        | mk r2 rest =>
          obtain ⟨s4, evs2⟩ := rest
          rw [h4] at h
          have hcf := get_crtc_state_frame env (putConnState t i cs0) c
          have htr := get_crtc_state_trace env (putConnState t i cs0) c
          rw [h4] at hcf htr
          cases r2 with
          | error e => simp at h
          | ok cs2 =>
            simp only [Prod.mk.injEq, Except.ok.injEq] at h
            obtain ⟨hcs, hs2, hevs⟩ := h
            subst hcs; subst hs2; subst hevs
            refine ⟨?_, ?_, ?_, ?_⟩
            · unfold drm_atomic_get_existing_connector_state getConnEntry at hstored ⊢
              have hconn : (s4 : AtomicState).connectors = (putConnState t i cs0).connectors :=
                hcf.2.1
              rw [hconn]
              exact hstored
            · have hconn : (s4 : AtomicState).connectors = (putConnState t i cs0).connectors :=
                hcf.2.1
              rw [hconn]
              exact hplen
            · exact fun k hk => hcf.2.2.2.2.2 k (hpheld k hk)
            · rcases htr with hx | hx <;> simp only at hx <;> subst hx <;>
                simp [List.count_cons]

theorem get_conn_state_populated (env : Env) (dev : Device) (s : AtomicState) (i : Nat)
    (cs : ConnState) (hheld : LockId.connection ∈ s.held)
    (hlen : i < s.connectors.length)
    (hex : drm_atomic_get_existing_connector_state s i = some cs) :
    drm_atomic_get_connector_state env dev s i = (Except.ok cs, s, []) := by
  unfold drm_atomic_get_connector_state
  have hlock : drm_modeset_lock env s LockId.connection = (Except.ok (), s) := by
    unfold drm_modeset_lock
    simp [hheld]
  rw [hlock]
  dsimp only
  have hng : ¬ s.connectors.length ≤ i := by omega
  rw [if_neg hng]
  unfold drm_atomic_get_connector_state_tail
  rw [hex]

theorem get_conn_state_ok (env : Env) (dev : Device) (s : AtomicState) (i : Nat)
    (cs : ConnState) (s2 : AtomicState) (evs : List Ev)
    (h : drm_atomic_get_connector_state env dev s i = (Except.ok cs, s2, evs)) :
    drm_atomic_get_existing_connector_state s2 i = some cs ∧
    LockId.connection ∈ s2.held ∧
    i < s2.connectors.length ∧
    evs.count (Ev.dupConn i) ≤ 1 := by
  unfold drm_atomic_get_connector_state at h
  cases h2 : drm_modeset_lock env s LockId.connection with
  | mk r s1 =>
    rw [h2] at h
    cases r with
    | error e => simp at h
    | ok u =>
      have hheld1 : LockId.connection ∈ s1.held := by
        have hx := drm_modeset_lock_ok_held env s LockId.connection (by rw [h2])
        rw [h2] at hx
        exact hx
      dsimp only at h
      by_cases hg : s1.connectors.length ≤ i
      · rw [if_pos hg] at h
        by_cases hgo : env.connGrowOk (max (i + 1) dev.numConnector)
        · rw [if_pos hgo] at h
          have hmax : i + 1 ≤ max (i + 1) dev.numConnector := Nat.le_max_left _ _
          have hlent : i < (s1.connectors ++ List.replicate
              (max (i + 1) dev.numConnector - s1.connectors.length) emptyConnEntry).length := by
            simp
            omega
          obtain ⟨ha, hb, hc, hd⟩ := conn_tail_ok env _ i cs s2 evs hlent h
          exact ⟨ha, hc _ hheld1, by rw [hb]; exact hlent, hd⟩
        · rw [if_neg hgo] at h
          simp at h
      · rw [if_neg hg] at h
        have hlent : i < s1.connectors.length := by omega
        obtain ⟨ha, hb, hc, hd⟩ := conn_tail_ok env s1 i cs s2 evs hlent h
        exact ⟨ha, hc _ hheld1, by rw [hb]; exact hlent, hd⟩

/-! Concrete fixtures used by the witness theorems. -/

/-! The claims. -/

/-- C1: within one transaction, get-or-create on a CRTC, plane or connector
is identity-stable: a slot already populated with a snapshot is returned
as-is with no hook call, a successful call leaves the returned snapshot
stored so that an immediate repeat returns the identical snapshot with an
empty trace and an unchanged transaction, and the per-object duplicate hook
is invoked at most once in any call. -/
theorem claim1_get_state_duplicates_at_most_once (env : Env) (dev : Device)
    (s : AtomicState) (i : Nat) :
    (∀ cs, drm_atomic_get_existing_crtc_state s i = some cs →
       drm_atomic_get_crtc_state env s i = (Except.ok cs, s, [])) ∧
    (∀ cs s2 evs, i < s.crtcs.length →
       drm_atomic_get_crtc_state env s i = (Except.ok cs, s2, evs) →
       drm_atomic_get_existing_crtc_state s2 i = some cs ∧
       drm_atomic_get_crtc_state env s2 i = (Except.ok cs, s2, []) ∧
       evs.count (Ev.dupCrtc i) ≤ 1) ∧
    (∀ ps, drm_atomic_get_existing_plane_state s i = some ps →
       drm_atomic_get_plane_state env s i = (Except.ok ps, s, [])) ∧
    (∀ ps s2 evs, i < s.planes.length →
       drm_atomic_get_plane_state env s i = (Except.ok ps, s2, evs) →
       drm_atomic_get_existing_plane_state s2 i = some ps ∧
       drm_atomic_get_plane_state env s2 i = (Except.ok ps, s2, []) ∧
       evs.count (Ev.dupPlane i) ≤ 1) ∧
    (∀ cs s2 evs,
       drm_atomic_get_connector_state env dev s i = (Except.ok cs, s2, evs) →
       drm_atomic_get_existing_connector_state s2 i = some cs ∧
       drm_atomic_get_connector_state env dev s2 i = (Except.ok cs, s2, []) ∧
       evs.count (Ev.dupConn i) ≤ 1) := by
  refine ⟨?_, ?_, ?_, ?_, ?_⟩
  · intro cs h
    exact get_crtc_state_existing env s i cs h
  · intro cs s2 evs hlen h
    have hst := get_crtc_state_ok_stored env s i cs s2 evs hlen h
    have htr := get_crtc_state_trace env s i
    rw [h] at htr
    refine ⟨hst, get_crtc_state_existing env s2 i cs hst, ?_⟩
    rcases htr with hx | hx <;> simp only at hx <;> subst hx <;> simp
  · intro ps h
    exact get_plane_state_existing env s i ps h
  · intro ps s2 evs hlen h
    have hst := get_plane_state_ok_stored env s i ps s2 evs hlen h
    have hcnt := get_plane_state_dup_count env s i
    rw [h] at hcnt
    exact ⟨hst, get_plane_state_existing env s2 i ps hst, hcnt⟩
  · intro cs s2 evs h
    obtain ⟨ha, hb, hc, hd⟩ := get_conn_state_ok env dev s i cs s2 evs h
    exact ⟨ha, get_conn_state_populated env dev s2 i cs hb hc ha, hd⟩

/-- C1 witness: on a concrete device, a first get of CRTC 0 duplicates once
and a repeat returns the stored snapshot unchanged. -/
theorem claim1_witness :
    0 < state0.crtcs.length ∧
    drm_atomic_get_crtc_state env0 state0 0 =
      (Except.ok crtcState0, (drm_atomic_get_crtc_state env0 state0 0).2.1,
        (drm_atomic_get_crtc_state env0 state0 0).2.2) ∧
    (drm_atomic_get_existing_crtc_state ((drm_atomic_get_crtc_state env0 state0 0).2.1) 0
        = some crtcState0 ∧
     drm_atomic_get_crtc_state env0 ((drm_atomic_get_crtc_state env0 state0 0).2.1) 0
        = (Except.ok crtcState0, (drm_atomic_get_crtc_state env0 state0 0).2.1, []) ∧
     ((drm_atomic_get_crtc_state env0 state0 0).2.2).count (Ev.dupCrtc 0) ≤ 1) :=
  ⟨by decide, by decide,
    (claim1_get_state_duplicates_at_most_once env0 dev0 state0 0).2.1 crtcState0
      ((drm_atomic_get_crtc_state env0 state0 0).2.1)
      ((drm_atomic_get_crtc_state env0 state0 0).2.2)
      (by decide) (by decide)⟩

theorem existing_conn_append_replicate (s1 : AtomicState) (n : Nat) (i : Nat) :
    drm_atomic_get_existing_connector_state
      { s1 with connectors := s1.connectors ++ List.replicate n emptyConnEntry } i =
    drm_atomic_get_existing_connector_state s1 i := by
  unfold drm_atomic_get_existing_connector_state getConnEntry
  by_cases h : i < s1.connectors.length
  · simp [List.getElem?_append, h]
  · have hn : s1.connectors[i]? = none := List.getElem?_eq_none (by omega)
    simp only [List.getElem?_append, if_neg h, hn]
    by_cases h2 : i - s1.connectors.length < n
    · simp [List.getElem?_replicate, h2, emptyConnEntry]
    · simp [List.getElem?_replicate, h2]

theorem conn_tail_linked (env : Env) (t : AtomicState) (i : Nat) (cs : ConnState)
    (s2 : AtomicState) (evs : List Ev)
    (hinv : ∀ cs0 c, drm_atomic_get_existing_connector_state t i = some cs0 →
       cs0.crtc = some c → crtcStateSet t c = true)
    (hdup : ∀ cs1 c, env.dupConn i = some cs1 → cs1.crtc = some c → c < t.crtcs.length)
    (h : drm_atomic_get_connector_state_tail env t i = (Except.ok cs, s2, evs)) :
    ∀ c, cs.crtc = some c → crtcStateSet s2 c = true := by
  intro c hc
  unfold drm_atomic_get_connector_state_tail at h
  cases h1 : drm_atomic_get_existing_connector_state t i with
  | some cs0 =>
    rw [h1] at h
    simp only [Prod.mk.injEq, Except.ok.injEq] at h
    obtain ⟨hcs, hs2, hevs⟩ := h
    subst hcs; subst hs2
    exact hinv cs0 c h1 hc
  | none =>
    rw [h1] at h
    cases h3 : env.dupConn i with
    | none => rw [h3] at h; simp at h
    | some cs0 =>
      rw [h3] at h
      dsimp only at h
      cases hcc : cs0.crtc with
      | none =>
        rw [hcc] at h
        simp only [Prod.mk.injEq, Except.ok.injEq] at h
        obtain ⟨hcs, hs2, hevs⟩ := h
        subst hcs
        rw [hc] at hcc
        cases hcc
      | some c0 =>
        rw [hcc] at h
        dsimp only at h
        cases h4 : drm_atomic_get_crtc_state env (putConnState t i cs0) c0 with
        | mk r2 rest =>
          obtain ⟨s4, evs2⟩ := rest
          rw [h4] at h
          cases r2 with
          | error e => simp at h
          | ok cs2 =>
            simp only [Prod.mk.injEq, Except.ok.injEq] at h
            obtain ⟨hcs, hs2, hevs⟩ := h
            subst hcs; subst hs2
            have hc0 : c = c0 := by
              have h5 := hc
              rw [hcc] at h5
              injection h5 with hx
              exact hx.symm
            have hlen : c0 < (putConnState t i cs0).crtcs.length := by
              have hdd := hdup cs0 c0 h3 hcc
              simpa [putConnState] using hdd
            have hst := get_crtc_state_ok_stored env (putConnState t i cs0) c0 cs2 s4 evs2
              hlen h4
            rw [hc0]
            simp [crtcStateSet, hst]

/-- C10: when get-or-create of a plane or connector state succeeds, any CRTC
referenced by the returned snapshot has its state populated in the
transaction: a freshly duplicated snapshot pulls the referenced CRTC's
state in before returning, and a pre-existing snapshot already satisfies
the linking invariant. -/
theorem claim10_get_state_pulls_in_crtc (env : Env) (dev : Device) (s : AtomicState)
    (i : Nat) :
    (∀ ps s2 evs,
       planeEntryCrtcLinked s i = true →
       dupPlaneCrtcInRange env s i = true →
       drm_atomic_get_plane_state env s i = (Except.ok ps, s2, evs) →
       ∀ c, ps.crtc = some c → crtcStateSet s2 c = true) ∧
    (∀ cs s2 evs,
       connEntryCrtcLinked s i = true →
       dupConnCrtcInRange env s i = true →
       drm_atomic_get_connector_state env dev s i = (Except.ok cs, s2, evs) →
       ∀ c, cs.crtc = some c → crtcStateSet s2 c = true) := by
  constructor
  · intro ps s2 evs hinv hdup h c hc
    unfold drm_atomic_get_plane_state at h
    cases h1 : drm_atomic_get_existing_plane_state s i with
    | some ps0 =>
      rw [h1] at h
      simp only [Prod.mk.injEq, Except.ok.injEq] at h
      obtain ⟨hps, hs2, hevs⟩ := h
      subst hps; subst hs2
      unfold planeEntryCrtcLinked at hinv
      simp only [h1, hc] at hinv
      exact hinv
    | none =>
      rw [h1] at h
      cases h2 : drm_modeset_lock env s (LockId.plane i) with
      | mk r s1 =>
        rw [h2] at h
        have hC : s1.crtcs = s.crtcs := by
          have hd := drm_modeset_lock_snd env s (LockId.plane i)
          rw [h2] at hd
          rcases hd with hx | hx <;> simp only at hx <;> rw [hx]
        cases r with
        | error e => simp at h
        | ok u =>
          cases h3 : env.dupPlane i with
          | none => rw [h3] at h; simp at h
          | some ps0 =>
            rw [h3] at h
            dsimp only at h
            unfold dupPlaneCrtcInRange at hdup
            simp only [h3] at hdup
            cases hps0 : ps0.crtc with
            | none =>
              rw [hps0] at h
              simp only [Prod.mk.injEq, Except.ok.injEq] at h
              obtain ⟨hps, hs2, hevs⟩ := h
              subst hps
              rw [hc] at hps0
              cases hps0
            | some c0 =>
              rw [hps0] at h
              dsimp only at h
              cases h4 : drm_atomic_get_crtc_state env (putPlaneState s1 i ps0) c0 with
              | mk r2 rest =>
                obtain ⟨s3, evs2⟩ := rest
                rw [h4] at h
                cases r2 with
                | error e => simp at h
                | ok cs2 =>
                  simp only [Prod.mk.injEq, Except.ok.injEq] at h
                  obtain ⟨hps, hs2, hevs⟩ := h
                  subst hps; subst hs2
                  have hc0 : c = c0 := by
                    have h5 := hc
                    rw [hps0] at h5
                    injection h5 with hx
                    exact hx.symm
                  simp only [hps0] at hdup
                  have hlen : c0 < (putPlaneState s1 i ps0).crtcs.length := by
                    simp only [putPlaneState]
                    rw [hC]
                    simpa using hdup
                  have hst := get_crtc_state_ok_stored env (putPlaneState s1 i ps0) c0
                    cs2 s3 evs2 hlen h4
                  rw [hc0]
                  simp [crtcStateSet, hst]
  · intro cs s2 evs hinv hdup h c hc
    unfold drm_atomic_get_connector_state at h
    cases h2 : drm_modeset_lock env s LockId.connection with
    | mk r s1 =>
      rw [h2] at h
      have hL : s1 = s ∨ s1 = { s with held := LockId.connection :: s.held } := by
        have hd := drm_modeset_lock_snd env s LockId.connection
        rw [h2] at hd
        simpa using hd
      have hC : s1.crtcs = s.crtcs := by rcases hL with hx | hx <;> rw [hx]
      have hCo : s1.connectors = s.connectors := by rcases hL with hx | hx <;> rw [hx]
      have hexs : ∀ j, drm_atomic_get_existing_connector_state s1 j =
          drm_atomic_get_existing_connector_state s j := by
        intro j
        unfold drm_atomic_get_existing_connector_state getConnEntry
        rw [hCo]
      have hcss : ∀ j, crtcStateSet s1 j = crtcStateSet s j := by
        intro j
        unfold crtcStateSet drm_atomic_get_existing_crtc_state getCrtcEntry
        rw [hC]
      cases r with
      | error e => simp at h
      | ok u =>
        dsimp only at h
        have htail : ∀ t : AtomicState,
            (∀ j, drm_atomic_get_existing_connector_state t j =
              drm_atomic_get_existing_connector_state s1 j) →
            t.crtcs = s1.crtcs →
            drm_atomic_get_connector_state_tail env t i = (Except.ok cs, s2, evs) →
            ∀ c, cs.crtc = some c → crtcStateSet s2 c = true := by
          intro t hext htc ht
          refine conn_tail_linked env t i cs s2 evs ?_ ?_ ht
          · intro cs0 c0 hx hx2
            unfold connEntryCrtcLinked at hinv
            rw [hext i, hexs i] at hx
            simp only [hx, hx2] at hinv
            have hset : crtcStateSet t c0 = crtcStateSet s c0 := by
              unfold crtcStateSet drm_atomic_get_existing_crtc_state getCrtcEntry
              rw [htc, hC]
            rw [hset]
            exact hinv
          · intro cs1 c0 hx hx2
            unfold dupConnCrtcInRange at hdup
            simp only [hx, hx2] at hdup
            rw [htc, hC]
            simpa using hdup
        by_cases hg : s1.connectors.length ≤ i
        · rw [if_pos hg] at h
          by_cases hgo : env.connGrowOk (max (i + 1) dev.numConnector)
          · rw [if_pos hgo] at h
            refine htail _ ?_ ?_ h c hc
            · intro j
              exact existing_conn_append_replicate s1 _ j
            · rfl
          · rw [if_neg hgo] at h
            simp at h
        · rw [if_neg hg] at h
          exact htail s1 (fun j => rfl) rfl h c hc

/-- C10 witness: a fresh plane whose duplicated state references CRTC 0
leaves CRTC 0 populated in the transaction. -/
theorem claim10_witness :
    planeEntryCrtcLinked state0 0 = true ∧
    dupPlaneCrtcInRange
      { env0 with dupPlane := fun _ => some { planeState0 with crtc := some 0 } } state0 0
      = true ∧
    (∀ c, ({ planeState0 with crtc := some 0 } : PlaneState).crtc = some c →
      crtcStateSet
        ((drm_atomic_get_plane_state
          { env0 with dupPlane := fun _ => some { planeState0 with crtc := some 0 } }
          state0 0).2.1) c = true) :=
  ⟨by decide, by decide,
    (claim10_get_state_pulls_in_crtc
      { env0 with dupPlane := fun _ => some { planeState0 with crtc := some 0 } }
      dev0 state0 0).1
      { planeState0 with crtc := some 0 }
      ((drm_atomic_get_plane_state
        { env0 with dupPlane := fun _ => some { planeState0 with crtc := some 0 } }
        state0 0).2.1)
      ((drm_atomic_get_plane_state
        { env0 with dupPlane := fun _ => some { planeState0 with crtc := some 0 } }
        state0 0).2.2)
      (by decide) (by decide) (by decide)⟩

theorem U32MAX_eq : U32MAX = 2 ^ 32 - 1 := by norm_num [U32MAX]

theorem testBit_U32MAX (j : Nat) (hj : j < 32) : U32MAX.testBit j = true := by
  rw [U32MAX_eq, Nat.testBit_two_pow_sub_one]
  simpa using hj

theorem testBit_clearBit32_self (m b : Nat) (hb : b < 32) :
    (clearBit32 m b).testBit b = false := by
  unfold clearBit32
  rw [Nat.testBit_and, Nat.testBit_xor, Nat.shiftLeft_eq, one_mul,
    Nat.testBit_two_pow_self, testBit_U32MAX b hb]
  simp

theorem testBit_clearBit32_other (m b j : Nat) (hj : j < 32) (hne : j ≠ b) :
    (clearBit32 m b).testBit j = m.testBit j := by
  unfold clearBit32
  rw [Nat.testBit_and, Nat.testBit_xor, Nat.shiftLeft_eq, one_mul,
    Nat.testBit_two_pow_of_ne (Ne.symm hne), testBit_U32MAX j hj]
  simp

theorem testBit_setBit32_self (m b : Nat) : (setBit32 m b).testBit b = true := by
  unfold setBit32
  rw [Nat.testBit_or, Nat.shiftLeft_eq, one_mul, Nat.testBit_two_pow_self]
  simp

theorem testBit_setBit32_other (m b j : Nat) (hne : j ≠ b) :
    (setBit32 m b).testBit j = m.testBit j := by
  unfold setBit32
  rw [Nat.testBit_or, Nat.shiftLeft_eq, one_mul,
    Nat.testBit_two_pow_of_ne (Ne.symm hne)]
  simp

theorem existing_crtc_none_of_ge (t : AtomicState) (j : Nat)
    (h : t.crtcs.length ≤ j) :
    drm_atomic_get_existing_crtc_state t j = none := by
  unfold drm_atomic_get_existing_crtc_state getCrtcEntry
  rw [List.getElem?_eq_none h]
  rfl

theorem updateCrtc_existing_self (s : AtomicState) (i : Nat) (f : CrtcState → CrtcState) :
    drm_atomic_get_existing_crtc_state (updateCrtcState s i f) i =
      (drm_atomic_get_existing_crtc_state s i).map f := by
  unfold updateCrtcState drm_atomic_get_existing_crtc_state getCrtcEntry
  cases he : s.crtcs[i]? with
  | none => simp [he, emptyCrtcEntry]
  | some e =>
    cases hes : e.state with
    | none => simp [he, hes]
    | some cs =>
      have hlen : i < s.crtcs.length := by
        by_contra hx
        rw [List.getElem?_eq_none (by omega)] at he
        cases he
      simp [he, hes, List.getElem?_set_self, hlen]

theorem updateCrtc_existing_other (s : AtomicState) (i : Nat) (f : CrtcState → CrtcState)
    (j : Nat) (hne : j ≠ i) :
    drm_atomic_get_existing_crtc_state (updateCrtcState s i f) j =
      drm_atomic_get_existing_crtc_state s j := by
  unfold updateCrtcState drm_atomic_get_existing_crtc_state getCrtcEntry
  cases he : s.crtcs[i]? with
  | none => simp
  | some e =>
    cases hes : e.state with
    | none => simp [hes]
    | some cs => simp [hes, List.getElem?_set_ne (Ne.symm hne)]

theorem updateCrtc_crtcs_length (s : AtomicState) (i : Nat) (f : CrtcState → CrtcState) :
    (updateCrtcState s i f).crtcs.length = s.crtcs.length := by
  unfold updateCrtcState
  cases he : s.crtcs[i]? with
  | none => rfl
  | some e =>
    cases hes : e.state with
    | none => simp [hes]
    | some cs => simp [hes]

theorem updatePlane_crtcs (s : AtomicState) (i : Nat) (f : PlaneState → PlaneState) :
    (updatePlaneState s i f).crtcs = s.crtcs := by
  unfold updatePlaneState
  cases he : s.planes[i]? with
  | none => rfl
  | some e =>
    cases hes : e.state with
    | none => simp [hes]
    | some ps => simp [hes]

theorem get_crtc_state_preserves (env : Env) (s : AtomicState) (i c : Nat)
    (cs : CrtcState) (h : drm_atomic_get_existing_crtc_state s c = some cs) :
    drm_atomic_get_existing_crtc_state ((drm_atomic_get_crtc_state env s i).2.1) c
      = some cs := by
  by_cases hc : c = i
  · subst hc
    rw [get_crtc_state_existing env s c cs h]
    exact h
  · have hf := (get_crtc_state_frame env s i).2.2.2.2.1 c hc
    unfold drm_atomic_get_existing_crtc_state getCrtcEntry at h ⊢
    rw [hf]
    exact h

theorem existing_crtc_congr {t u : AtomicState} (h : t.crtcs = u.crtcs) (c : Nat) :
    drm_atomic_get_existing_crtc_state t c = drm_atomic_get_existing_crtc_state u c := by
  unfold drm_atomic_get_existing_crtc_state getCrtcEntry
  rw [h]

theorem get_crtc_existing_other (env : Env) (s : AtomicState) (i c : Nat) (hne : c ≠ i) :
    drm_atomic_get_existing_crtc_state ((drm_atomic_get_crtc_state env s i).2.1) c =
      drm_atomic_get_existing_crtc_state s c := by
  have hf := (get_crtc_state_frame env s i).2.2.2.2.1 c hne
  unfold drm_atomic_get_existing_crtc_state getCrtcEntry
  rw [hf]

/-- One unlink-or-link phase of drm_atomic_set_crtc_for_plane: how a
successful get-or-create of CRTC i followed by an in-place rewrite of its
snapshot transforms each CRTC slot of the transaction. -/
theorem get_update_crtc_phase (env : Env) (s : AtomicState) (i : Nat)
    (f : CrtcState → CrtcState) (csr : CrtcState) (sg : AtomicState) (evg : List Ev)
    (h4 : drm_atomic_get_crtc_state env s i = (Except.ok csr, sg, evg)) :
    (∀ c, c ≠ i →
      drm_atomic_get_existing_crtc_state (updateCrtcState sg i f) c =
        drm_atomic_get_existing_crtc_state s c) ∧
    (∀ cs, drm_atomic_get_existing_crtc_state s i = some cs →
      drm_atomic_get_existing_crtc_state (updateCrtcState sg i f) i = some (f cs)) ∧
    (∀ res, drm_atomic_get_existing_crtc_state (updateCrtcState sg i f) i = some res →
      ∃ x, res = f x) := by
  have hsg : (drm_atomic_get_crtc_state env s i).2.1 = sg := by rw [h4]
  refine ⟨?_, ?_, ?_⟩
  · intro c hne
    rw [updateCrtc_existing_other sg i f c hne, ← hsg, get_crtc_existing_other env s i c hne]
  · intro cs hcs
    have hex := get_crtc_state_existing env s i cs hcs
    rw [hex] at h4
    simp only [Prod.mk.injEq, Except.ok.injEq] at h4
    obtain ⟨hcsr, hsg2, hevg⟩ := h4
    rw [updateCrtc_existing_self, ← hsg2, hcs]
    rfl
  · intro res hres
    rw [updateCrtc_existing_self] at hres
    cases hx : drm_atomic_get_existing_crtc_state sg i with
    | none => rw [hx] at hres; cases hres
    | some x =>
      rw [hx] at hres
      injection hres with hres
      exact ⟨x, hres.symm⟩

/-- C3: setting a plane's CRTC preserves membership-mask symmetry. When the
target equals the plane state's current CRTC the call is a successful
no-op; after any other successful call the old CRTC snapshot's plane_mask
no longer contains the plane's bit, the new CRTC snapshot's plane_mask
contains it, and every other plane's bit in every CRTC snapshot populated
before and after is unchanged. -/
theorem claim3_set_crtc_for_plane_mask_symmetry (env : Env) (s : AtomicState)
    (pi : Nat) (newCrtc : Option Nat) (ps : PlaneState)
    (hps : drm_atomic_get_existing_plane_state s pi = some ps) (hpi : pi < 32) :
    (ps.crtc = newCrtc →
       drm_atomic_set_crtc_for_plane env s pi newCrtc = (Except.ok (), s, [])) ∧
    (∀ s2 evs, ps.crtc ≠ newCrtc →
       drm_atomic_set_crtc_for_plane env s pi newCrtc = (Except.ok (), s2, evs) →
       (∀ oc ocs, ps.crtc = some oc →
          drm_atomic_get_existing_crtc_state s2 oc = some ocs →
          ocs.planeMask.testBit pi = false) ∧
       (∀ nc ncs, newCrtc = some nc →
          drm_atomic_get_existing_crtc_state s2 nc = some ncs →
          ncs.planeMask.testBit pi = true) ∧
       (∀ c cs1 cs2 j, j < 32 → j ≠ pi →
          drm_atomic_get_existing_crtc_state s c = some cs1 →
          drm_atomic_get_existing_crtc_state s2 c = some cs2 →
          cs2.planeMask.testBit j = cs1.planeMask.testBit j)) := by
  constructor
  · intro heq
    unfold drm_atomic_set_crtc_for_plane
    rw [hps]
    simp [heq]
  · intro s2 evs hneq h
    unfold drm_atomic_set_crtc_for_plane at h
    rw [hps] at h
    dsimp only at h
    rw [if_neg hneq] at h
    cases hoc : ps.crtc with
    | none =>
      rw [hoc] at h
      dsimp only at h
      cases hnc : newCrtc with
      | none => exact absurd (hoc.trans hnc.symm) hneq
      | some nc =>
        rw [hnc] at h
        dsimp only at h
        cases h4 : drm_atomic_get_crtc_state env
            (updatePlaneState s pi (fun p => { p with crtc := some nc })) nc with
        | mk r2 rest =>
          obtain ⟨sg2, evg2⟩ := rest
          rw [h4] at h
          cases r2 with
          | error e => simp at h
          | ok csn =>
            simp only [Prod.mk.injEq] at h
            obtain ⟨hu, hs2, hevs⟩ := h
            have hph := get_update_crtc_phase env
              (updatePlaneState s pi (fun p => { p with crtc := some nc })) nc
              (fun cs => { cs with planeMask := setBit32 cs.planeMask pi })
              csn sg2 evg2 h4
            have ht2 : ∀ c, drm_atomic_get_existing_crtc_state
                (updatePlaneState s pi (fun p => { p with crtc := some nc })) c =
                drm_atomic_get_existing_crtc_state s c :=
              fun c => existing_crtc_congr (updatePlane_crtcs s pi _) c
            refine ⟨?_, ?_, ?_⟩
            · intro oc ocs hx hex
              exact Option.noConfusion hx
            · intro nc2 ncs hx hex
              have hnn : nc2 = nc := by
                injection hx with hy
                exact hy.symm
              rw [hnn] at hex
              rw [← hs2] at hex
              obtain ⟨x, hxx⟩ := hph.2.2 ncs hex
              rw [hxx]
              exact testBit_setBit32_self x.planeMask pi
            · intro c cs1 cs2 j hj hjp hc1 hc2
              rw [← hs2] at hc2
              by_cases hcn : c = nc
              · subst hcn
                have h1 : drm_atomic_get_existing_crtc_state
                    (updatePlaneState s pi (fun p => { p with crtc := some c })) c
                    = some cs1 := by rw [ht2 c]; exact hc1
                have h2 := hph.2.1 cs1 h1
                rw [hc2] at h2
                injection h2 with h2
                rw [h2]
                exact testBit_setBit32_other cs1.planeMask pi j hjp
              · have h3 := hph.1 c hcn
                rw [ht2 c] at h3
                rw [h3, hc1] at hc2
                injection hc2 with hc2
                rw [← hc2]
    | some oc =>
      rw [hoc] at h
      dsimp only at h
      cases h4 : drm_atomic_get_crtc_state env s oc with
      | mk r rest =>
        obtain ⟨sg, evg⟩ := rest
        rw [h4] at h
        cases r with
        | error e => simp at h
        | ok csold =>
          dsimp only at h
          have hph1 := get_update_crtc_phase env s oc
            (fun cs => { cs with planeMask := clearBit32 cs.planeMask pi })
            csold sg evg h4
          have ht2 : ∀ c, drm_atomic_get_existing_crtc_state
              (updatePlaneState
                (updateCrtcState sg oc
                  (fun cs => { cs with planeMask := clearBit32 cs.planeMask pi }))
                pi (fun p => { p with crtc := newCrtc })) c =
              drm_atomic_get_existing_crtc_state
                (updateCrtcState sg oc
                  (fun cs => { cs with planeMask := clearBit32 cs.planeMask pi })) c :=
            fun c => existing_crtc_congr (updatePlane_crtcs _ pi _) c
          cases hnc : newCrtc with
          | none =>
            rw [hnc] at h
            dsimp only at h
            simp only [Prod.mk.injEq] at h
            obtain ⟨hu, hs2, hevs⟩ := h
            refine ⟨?_, ?_, ?_⟩
            · intro oc2 ocs hx hex
              have hoo : oc2 = oc := by
                injection hx with hy
                exact hy.symm
              rw [hoo] at hex
              rw [← hs2] at hex
              rw [hnc] at ht2
              rw [ht2 oc] at hex
              obtain ⟨x, hxx⟩ := hph1.2.2 ocs hex
              rw [hxx]
              exact testBit_clearBit32_self x.planeMask pi hpi
            · intro nc ncs hx hex
              exact Option.noConfusion hx
            · intro c cs1 cs2 j hj hjp hc1 hc2
              rw [← hs2] at hc2
              rw [hnc] at ht2
              rw [ht2 c] at hc2
              by_cases hco : c = oc
              · subst hco
                have h2 := hph1.2.1 cs1 hc1
                rw [hc2] at h2
                injection h2 with h2
                rw [h2]
                exact testBit_clearBit32_other cs1.planeMask pi j hj hjp
              · have h3 := hph1.1 c hco
                rw [h3, hc1] at hc2
                injection hc2 with hc2
                rw [← hc2]
          | some nc =>
            rw [hnc] at h
            dsimp only at h
            have hnn : oc ≠ nc := by
              intro hx
              apply hneq
              rw [hoc, hnc, hx]
            cases h5 : drm_atomic_get_crtc_state env
                (updatePlaneState
                  (updateCrtcState sg oc
                    (fun cs => { cs with planeMask := clearBit32 cs.planeMask pi }))
                  pi (fun p => { p with crtc := some nc })) nc with
            | mk r2 rest2 =>
              obtain ⟨sg2, evg2⟩ := rest2
              rw [h5] at h
              cases r2 with
              | error e => simp at h
              | ok csn =>
                simp only [Prod.mk.injEq] at h
                obtain ⟨hu, hs2, hevs⟩ := h
                have hph2 := get_update_crtc_phase env
                  (updatePlaneState
                    (updateCrtcState sg oc
                      (fun cs => { cs with planeMask := clearBit32 cs.planeMask pi }))
                    pi (fun p => { p with crtc := some nc })) nc
                  (fun cs => { cs with planeMask := setBit32 cs.planeMask pi })
                  csn sg2 evg2 h5
                rw [hnc] at ht2
                refine ⟨?_, ?_, ?_⟩
                · intro oc2 ocs hx hex
                  have hoo : oc2 = oc := by
                    injection hx with hy
                    exact hy.symm
                  rw [hoo] at hex
                  rw [← hs2] at hex
                  rw [hph2.1 oc hnn, ht2 oc] at hex
                  obtain ⟨x, hxx⟩ := hph1.2.2 ocs hex
                  rw [hxx]
                  exact testBit_clearBit32_self x.planeMask pi hpi
                · intro nc2 ncs hx hex
                  have hxx : nc2 = nc := by
                    injection hx with hy
                    exact hy.symm
                  rw [hxx] at hex
                  rw [← hs2] at hex
                  obtain ⟨x, hxy⟩ := hph2.2.2 ncs hex
                  rw [hxy]
                  exact testBit_setBit32_self x.planeMask pi
                · intro c cs1 cs2 j hj hjp hc1 hc2
                  rw [← hs2] at hc2
                  by_cases hcn : c = nc
                  · subst hcn
                    have hn1 : c ≠ oc := fun hx => hnn (hx.symm)
                    have h1 : drm_atomic_get_existing_crtc_state
                        (updatePlaneState
                          (updateCrtcState sg oc
                            (fun cs => { cs with planeMask := clearBit32 cs.planeMask pi }))
                          pi (fun p => { p with crtc := some c })) c = some cs1 := by
                      rw [ht2 c, hph1.1 c hn1]
                      exact hc1
                    have h2 := hph2.2.1 cs1 h1
                    rw [hc2] at h2
                    injection h2 with h2
                    rw [h2]
                    exact testBit_setBit32_other cs1.planeMask pi j hjp
                  · rw [hph2.1 c hcn, ht2 c] at hc2
                    by_cases hco : c = oc
                    · subst hco
                      have h2 := hph1.2.1 cs1 hc1
                      rw [hc2] at h2
                      injection h2 with h2
                      rw [h2]
                      exact testBit_clearBit32_other cs1.planeMask pi j hj hjp
                    · have h3 := hph1.1 c hco
                      rw [h3, hc1] at hc2
                      injection hc2 with hc2
                      rw [← hc2]

/-- C3 witness: linking plane 0 (currently unlinked) to CRTC 0 succeeds and
sets bit 0 of CRTC 0's plane_mask. -/
theorem claim3_witness :
    drm_atomic_get_existing_plane_state statePl0 0 = some planeState0 ∧
    (0 : Nat) < 32 ∧
    planeState0.crtc ≠ some 0 ∧
    drm_atomic_set_crtc_for_plane env0 statePl0 0 (some 0) =
      (Except.ok (), (drm_atomic_set_crtc_for_plane env0 statePl0 0 (some 0)).2.1,
        (drm_atomic_set_crtc_for_plane env0 statePl0 0 (some 0)).2.2) ∧
    drm_atomic_get_existing_crtc_state
      ((drm_atomic_set_crtc_for_plane env0 statePl0 0 (some 0)).2.1) 0 =
      some { crtcState0 with planeMask := 1 } ∧
    ({ crtcState0 with planeMask := 1 } : CrtcState).planeMask.testBit 0 = true :=
  ⟨by decide, by decide, by decide, by decide, by decide,
    ((claim3_set_crtc_for_plane_mask_symmetry env0 statePl0 0 (some 0) planeState0
      (by decide) (by decide)).2
      ((drm_atomic_set_crtc_for_plane env0 statePl0 0 (some 0)).2.1)
      ((drm_atomic_set_crtc_for_plane env0 statePl0 0 (some 0)).2.2)
      (by decide) (by decide)).2.1 0 { crtcState0 with planeMask := 1 } rfl (by decide)⟩

/-! Lemmas about drm_atomic_state_default_clear. -/

theorem clearCrtcList_get (n : Nat) (l : List CrtcEntry) (k : Nat) :
    ((clearCrtcList n l).1)[k]? = (l[k]?).map
      (fun e => if e.ptr then { e with ptr := false, state := none, commit := none }
        else e) := by
  induction l generalizing n k with
  | nil => simp [clearCrtcList]
  | cons e rest ih =>
    cases k with
    | zero => cases he : e.ptr <;> simp [clearCrtcList, he]
    | succ k2 => cases he : e.ptr <;> simp [clearCrtcList, he, ih (n + 1) k2]

theorem clearPlaneList_get (n : Nat) (l : List PlaneEntry) (k : Nat) :
    ((clearPlaneList n l).1)[k]? = (l[k]?).map
      (fun e => if e.ptr then { ptr := false, state := none } else e) := by
  induction l generalizing n k with
  | nil => simp [clearPlaneList]
  | cons e rest ih =>
    cases k with
    | zero => cases he : e.ptr <;> simp [clearPlaneList, he]
    | succ k2 => cases he : e.ptr <;> simp [clearPlaneList, he, ih (n + 1) k2]

theorem clearConnList_get (n : Nat) (l : List ConnEntry) (k : Nat) :
    ((clearConnList n l).1)[k]? = (l[k]?).map
      (fun e => if e.ptr then { ptr := false, state := none } else e) := by
  induction l generalizing n k with
  | nil => simp [clearConnList]
  | cons e rest ih =>
    cases k with
    | zero => cases he : e.ptr <;> simp [clearConnList, he]
    | succ k2 => cases he : e.ptr <;> simp [clearConnList, he, ih (n + 1) k2]

theorem clearCrtcList_ptr_false (n : Nat) (l : List CrtcEntry) :
    ∀ e ∈ (clearCrtcList n l).1, e.ptr = false := by
  induction l generalizing n with
  | nil => simp [clearCrtcList]
  | cons e rest ih =>
    intro x hx
    cases he : e.ptr <;> simp [clearCrtcList, he] at hx <;>
      rcases hx with hx | hx
    · rw [hx]; exact he
    · exact ih (n + 1) x hx
    · rw [hx]
    · exact ih (n + 1) x hx

theorem clearPlaneList_ptr_false (n : Nat) (l : List PlaneEntry) :
    ∀ e ∈ (clearPlaneList n l).1, e.ptr = false := by
  induction l generalizing n with
  | nil => simp [clearPlaneList]
  | cons e rest ih =>
    intro x hx
    cases he : e.ptr <;> simp [clearPlaneList, he] at hx <;>
      rcases hx with hx | hx
    · rw [hx]; exact he
    · exact ih (n + 1) x hx
    · rw [hx]
    · exact ih (n + 1) x hx

theorem clearConnList_ptr_false (n : Nat) (l : List ConnEntry) :
    ∀ e ∈ (clearConnList n l).1, e.ptr = false := by
  induction l generalizing n with
  | nil => simp [clearConnList]
  | cons e rest ih =>
    intro x hx
    cases he : e.ptr <;> simp [clearConnList, he] at hx <;>
      rcases hx with hx | hx
    · rw [hx]; exact he
    · exact ih (n + 1) x hx
    · rw [hx]
    · exact ih (n + 1) x hx

theorem count_commitClearEvs_destroyCrtc (i j : Nat) (c : Option CommitRec) :
    (commitClearEvs j c).count (Ev.destroyCrtc i) = 0 := by
  cases c with
  | none => simp [commitClearEvs]
  | some cr => cases hcr : cr.hasEvent <;> simp [commitClearEvs, hcr]

theorem clearCrtcList_count_destroy_lt (n : Nat) (l : List CrtcEntry) (i : Nat)
    (h : i < n) : ((clearCrtcList n l).2).count (Ev.destroyCrtc i) = 0 := by
  induction l generalizing n with
  | nil => simp [clearCrtcList]
  | cons e rest ih =>
    have hne : ¬ (n = i) := by omega
    have ih2 := ih (n + 1) (by omega)
    cases he : e.ptr <;>
      simp [clearCrtcList, he, List.count_cons, List.count_append,
        ih2, count_commitClearEvs_destroyCrtc, hne]

theorem clearCrtcList_count_destroy (n : Nat) (l : List CrtcEntry) (k : Nat) :
    ((clearCrtcList n l).2).count (Ev.destroyCrtc (n + k)) =
      if ((l[k]?).map CrtcEntry.ptr).getD false = true then 1 else 0 := by
  induction l generalizing n k with
  | nil => simp [clearCrtcList]
  | cons e rest ih =>
    cases k with
    | zero =>
      have hlt := clearCrtcList_count_destroy_lt (n + 1) rest n (by omega)
      cases he : e.ptr <;>
        simp [clearCrtcList, he, List.count_cons, List.count_append, hlt,
          count_commitClearEvs_destroyCrtc]
    | succ k2 =>
      have hn : n + (k2 + 1) = (n + 1) + k2 := by omega
      have hne : ¬ (n = n + 1 + k2) := by omega
      cases he : e.ptr <;>
        simp [clearCrtcList, he, List.count_cons, List.count_append, hn,
          ih (n + 1) k2, count_commitClearEvs_destroyCrtc, hne]

theorem clearPlaneList_count_destroy_lt (n : Nat) (l : List PlaneEntry) (i : Nat)
    (h : i < n) : ((clearPlaneList n l).2).count (Ev.destroyPlane i) = 0 := by
  induction l generalizing n with
  | nil => simp [clearPlaneList]
  | cons e rest ih =>
    have hne : ¬ (n = i) := by omega
    have ih2 := ih (n + 1) (by omega)
    cases he : e.ptr <;>
      simp [clearPlaneList, he, List.count_cons, ih2, hne]

theorem clearPlaneList_count_destroy (n : Nat) (l : List PlaneEntry) (k : Nat) :
    ((clearPlaneList n l).2).count (Ev.destroyPlane (n + k)) =
      if ((l[k]?).map PlaneEntry.ptr).getD false = true then 1 else 0 := by
  induction l generalizing n k with
  | nil => simp [clearPlaneList]
  | cons e rest ih =>
    cases k with
    | zero =>
      have hlt := clearPlaneList_count_destroy_lt (n + 1) rest n (by omega)
      cases he : e.ptr <;>
        simp [clearPlaneList, he, List.count_cons, hlt]
    | succ k2 =>
      have hn : n + (k2 + 1) = (n + 1) + k2 := by omega
      have hne : ¬ (n = n + 1 + k2) := by omega
      cases he : e.ptr <;>
        simp [clearPlaneList, he, List.count_cons, hn, ih (n + 1) k2, hne]

theorem clearConnList_count_destroy_lt (n : Nat) (l : List ConnEntry) (i : Nat)
    (h : i < n) : ((clearConnList n l).2).count (Ev.destroyConn i) = 0 := by
  induction l generalizing n with
  | nil => simp [clearConnList]
  | cons e rest ih =>
    have hne : ¬ (n = i) := by omega
    have ih2 := ih (n + 1) (by omega)
    cases he : e.ptr <;>
      simp [clearConnList, he, List.count_cons, ih2, hne]

theorem clearConnList_count_destroy (n : Nat) (l : List ConnEntry) (k : Nat) :
    ((clearConnList n l).2).count (Ev.destroyConn (n + k)) =
      if ((l[k]?).map ConnEntry.ptr).getD false = true then 1 else 0 := by
  induction l generalizing n k with
  | nil => simp [clearConnList]
  | cons e rest ih =>
    cases k with
    | zero =>
      have hlt := clearConnList_count_destroy_lt (n + 1) rest n (by omega)
      cases he : e.ptr <;>
        simp [clearConnList, he, List.count_cons, hlt]
    | succ k2 =>
      have hn : n + (k2 + 1) = (n + 1) + k2 := by omega
      have hne : ¬ (n = n + 1 + k2) := by omega
      cases he : e.ptr <;>
        simp [clearConnList, he, List.count_cons, hn, ih (n + 1) k2, hne]

theorem clearConnList_shape (n : Nat) (l : List ConnEntry) :
    ∀ ev ∈ (clearConnList n l).2, ∃ k, ev = Ev.destroyConn k ∨ ev = Ev.connUnref k := by
  induction l generalizing n with
  | nil => simp [clearConnList]
  | cons e rest ih =>
    intro ev hev
    cases he : e.ptr <;> simp [clearConnList, he] at hev
    · exact ih (n + 1) ev hev
    · rcases hev with hev | hev | hev
      · exact ⟨n, Or.inl hev⟩
      · exact ⟨n, Or.inr hev⟩
      · exact ih (n + 1) ev hev

theorem commitClearEvs_shape (j : Nat) (c : Option CommitRec) :
    ∀ ev ∈ commitClearEvs j c, ev = Ev.freeCommitEvent j ∨ ev = Ev.commitPut j := by
  intro ev hev
  cases c with
  | none => simp [commitClearEvs] at hev
  | some cr =>
    cases hcr : cr.hasEvent <;> simp [commitClearEvs, hcr] at hev
    · exact Or.inr hev
    · rcases hev with hev | hev
      · exact Or.inl hev
      · exact Or.inr hev

theorem clearCrtcList_shape (n : Nat) (l : List CrtcEntry) :
    ∀ ev ∈ (clearCrtcList n l).2, ∃ k, ev = Ev.destroyCrtc k ∨
      ev = Ev.freeCommitEvent k ∨ ev = Ev.commitPut k := by
  induction l generalizing n with
  | nil => simp [clearCrtcList]
  | cons e rest ih =>
    intro ev hev
    cases he : e.ptr <;> simp [clearCrtcList, he] at hev
    · exact ih (n + 1) ev hev
    · rcases hev with hev | hev | hev
      · exact ⟨n, Or.inl hev⟩
      · rcases commitClearEvs_shape n e.commit ev hev with hx | hx
        · exact ⟨n, Or.inr (Or.inl hx)⟩
        · exact ⟨n, Or.inr (Or.inr hx)⟩
      · exact ih (n + 1) ev hev

theorem clearPlaneList_shape (n : Nat) (l : List PlaneEntry) :
    ∀ ev ∈ (clearPlaneList n l).2, ∃ k, ev = Ev.destroyPlane k := by
  induction l generalizing n with
  | nil => simp [clearPlaneList]
  | cons e rest ih =>
    intro ev hev
    cases he : e.ptr <;> simp [clearPlaneList, he] at hev
    · exact ih (n + 1) ev hev
    · rcases hev with hev | hev
      · exact ⟨n, hev⟩
      · exact ih (n + 1) ev hev

theorem clearCrtcList_id (n : Nat) (l : List CrtcEntry)
    (h : ∀ e ∈ l, e.ptr = false) : clearCrtcList n l = (l, []) := by
  induction l generalizing n with
  | nil => rfl
  | cons e rest ih =>
    unfold clearCrtcList
    rw [ih (n + 1) (fun x hx => h x (List.mem_cons_of_mem e hx))]
    simp [h e (List.mem_cons_self e rest)]

theorem clearPlaneList_id (n : Nat) (l : List PlaneEntry)
    (h : ∀ e ∈ l, e.ptr = false) : clearPlaneList n l = (l, []) := by
  induction l generalizing n with
  | nil => rfl
  | cons e rest ih =>
    unfold clearPlaneList
    rw [ih (n + 1) (fun x hx => h x (List.mem_cons_of_mem e hx))]
    simp [h e (List.mem_cons_self e rest)]

theorem clearConnList_id (n : Nat) (l : List ConnEntry)
    (h : ∀ e ∈ l, e.ptr = false) : clearConnList n l = (l, []) := by
  induction l generalizing n with
  | nil => rfl
  | cons e rest ih =>
    unfold clearConnList
    rw [ih (n + 1) (fun x hx => h x (List.mem_cons_of_mem e hx))]
    simp [h e (List.mem_cons_self e rest)]

theorem conn_trace_no_destroyCrtc (n : Nat) (l : List ConnEntry) (i : Nat) :
    ((clearConnList n l).2).count (Ev.destroyCrtc i) = 0 := by
  rw [List.count_eq_zero]
  intro hmem
  rcases clearConnList_shape n l _ hmem with ⟨k, hk | hk⟩ <;> exact Ev.noConfusion hk

theorem conn_trace_no_destroyPlane (n : Nat) (l : List ConnEntry) (i : Nat) :
    ((clearConnList n l).2).count (Ev.destroyPlane i) = 0 := by
  rw [List.count_eq_zero]
  intro hmem
  rcases clearConnList_shape n l _ hmem with ⟨k, hk | hk⟩ <;> exact Ev.noConfusion hk

theorem crtc_trace_no_destroyPlane (n : Nat) (l : List CrtcEntry) (i : Nat) :
    ((clearCrtcList n l).2).count (Ev.destroyPlane i) = 0 := by
  rw [List.count_eq_zero]
  intro hmem
  rcases clearCrtcList_shape n l _ hmem with ⟨k, hk | hk | hk⟩ <;> exact Ev.noConfusion hk

theorem crtc_trace_no_destroyConn (n : Nat) (l : List CrtcEntry) (i : Nat) :
    ((clearCrtcList n l).2).count (Ev.destroyConn i) = 0 := by
  rw [List.count_eq_zero]
  intro hmem
  rcases clearCrtcList_shape n l _ hmem with ⟨k, hk | hk | hk⟩ <;> exact Ev.noConfusion hk

theorem plane_trace_no_destroyCrtc (n : Nat) (l : List PlaneEntry) (i : Nat) :
    ((clearPlaneList n l).2).count (Ev.destroyCrtc i) = 0 := by
  rw [List.count_eq_zero]
  intro hmem
  rcases clearPlaneList_shape n l _ hmem with ⟨k, hk⟩
  exact Ev.noConfusion hk

theorem plane_trace_no_destroyConn (n : Nat) (l : List PlaneEntry) (i : Nat) :
    ((clearPlaneList n l).2).count (Ev.destroyConn i) = 0 := by
  rw [List.count_eq_zero]
  intro hmem
  rcases clearPlaneList_shape n l _ hmem with ⟨k, hk⟩
  exact Ev.noConfusion hk

/-- C4: drm_atomic_state_default_clear leaves no populated slot (each
populated slot's object pointer, snapshot and pending-commit record are
reset to empty), invokes the external destroy hook exactly once per
previously populated slot of each kind (no double release, no leak), and is
idempotent: clearing the already-cleared transaction performs no hook call
and changes nothing. -/
theorem claim4_default_clear_exact_releases (s : AtomicState) :
    (∀ e ∈ (drm_atomic_state_default_clear s).1.crtcs, e.ptr = false) ∧
    (∀ e ∈ (drm_atomic_state_default_clear s).1.planes, e.ptr = false) ∧
    (∀ e ∈ (drm_atomic_state_default_clear s).1.connectors, e.ptr = false) ∧
    (∀ (i : Nat) (e : CrtcEntry), s.crtcs[i]? = some e → e.ptr = true →
      ((drm_atomic_state_default_clear s).1.crtcs)[i]? =
        some { e with ptr := false, state := none, commit := none }) ∧
    (∀ (i : Nat) (e : PlaneEntry), s.planes[i]? = some e → e.ptr = true →
      ((drm_atomic_state_default_clear s).1.planes)[i]? =
        some { ptr := false, state := none }) ∧
    (∀ (i : Nat) (e : ConnEntry), s.connectors[i]? = some e → e.ptr = true →
      ((drm_atomic_state_default_clear s).1.connectors)[i]? =
        some { ptr := false, state := none }) ∧
    (∀ i, ((drm_atomic_state_default_clear s).2).count (Ev.destroyCrtc i) =
      if crtcEntryPopulated s i = true then 1 else 0) ∧
    (∀ i, ((drm_atomic_state_default_clear s).2).count (Ev.destroyPlane i) =
      if planeEntryPopulated s i = true then 1 else 0) ∧
    (∀ i, ((drm_atomic_state_default_clear s).2).count (Ev.destroyConn i) =
      if connEntryPopulated s i = true then 1 else 0) ∧
    (drm_atomic_state_default_clear (drm_atomic_state_default_clear s).1 =
      ((drm_atomic_state_default_clear s).1, [])) := by
  refine ⟨?_, ?_, ?_, ?_, ?_, ?_, ?_, ?_, ?_, ?_⟩
  · exact clearCrtcList_ptr_false 0 s.crtcs
  · exact clearPlaneList_ptr_false 0 s.planes
  · exact clearConnList_ptr_false 0 s.connectors
  · intro i e he hp
    have hg := clearCrtcList_get 0 s.crtcs i
    rw [he] at hg
    show (clearCrtcList 0 s.crtcs).1[i]? = _
    rw [hg]
    simp [hp]
  · intro i e he hp
    have hg := clearPlaneList_get 0 s.planes i
    rw [he] at hg
    show (clearPlaneList 0 s.planes).1[i]? = _
    rw [hg]
    simp [hp]
  · intro i e he hp
    have hg := clearConnList_get 0 s.connectors i
    rw [he] at hg
    show (clearConnList 0 s.connectors).1[i]? = _
    rw [hg]
    simp [hp]
  · intro i
    have hc := clearCrtcList_count_destroy 0 s.crtcs i
    rw [Nat.zero_add] at hc
    show ((clearConnList 0 s.connectors).2 ++ (clearCrtcList 0 s.crtcs).2 ++
      (clearPlaneList 0 s.planes).2).count (Ev.destroyCrtc i) = _
    rw [List.count_append, List.count_append, conn_trace_no_destroyCrtc,
      plane_trace_no_destroyCrtc, hc]
    unfold crtcEntryPopulated
    omega
  · intro i
    have hc := clearPlaneList_count_destroy 0 s.planes i
    rw [Nat.zero_add] at hc
    show ((clearConnList 0 s.connectors).2 ++ (clearCrtcList 0 s.crtcs).2 ++
      (clearPlaneList 0 s.planes).2).count (Ev.destroyPlane i) = _
    rw [List.count_append, List.count_append, conn_trace_no_destroyPlane,
      crtc_trace_no_destroyPlane, hc]
    unfold planeEntryPopulated
    omega
  · intro i
    have hc := clearConnList_count_destroy 0 s.connectors i
    rw [Nat.zero_add] at hc
    show ((clearConnList 0 s.connectors).2 ++ (clearCrtcList 0 s.crtcs).2 ++
      (clearPlaneList 0 s.planes).2).count (Ev.destroyConn i) = _
    rw [List.count_append, List.count_append, crtc_trace_no_destroyConn,
      plane_trace_no_destroyConn, hc]
    unfold connEntryPopulated
    omega
  · have h1 := clearConnList_id 0 (drm_atomic_state_default_clear s).1.connectors
      (clearConnList_ptr_false 0 s.connectors)
    have h2 := clearCrtcList_id 0 (drm_atomic_state_default_clear s).1.crtcs
      (clearCrtcList_ptr_false 0 s.crtcs)
    have h3 := clearPlaneList_id 0 (drm_atomic_state_default_clear s).1.planes
      (clearPlaneList_ptr_false 0 s.planes)
    show (⟨{ (drm_atomic_state_default_clear s).1 with
        connectors := (clearConnList 0 (drm_atomic_state_default_clear s).1.connectors).1,
        crtcs := (clearCrtcList 0 (drm_atomic_state_default_clear s).1.crtcs).1,
        planes := (clearPlaneList 0 (drm_atomic_state_default_clear s).1.planes).1 },
      (clearConnList 0 (drm_atomic_state_default_clear s).1.connectors).2 ++
        (clearCrtcList 0 (drm_atomic_state_default_clear s).1.crtcs).2 ++
        (clearPlaneList 0 (drm_atomic_state_default_clear s).1.planes).2⟩ :
        AtomicState × List Ev) = _
    rw [h1, h2, h3]
    rfl

/-- C4 witness: clearing a transaction with a populated CRTC slot resets
that slot, releases its snapshot exactly once, and a second clear is a
no-op with an empty trace. -/
theorem claim4_witness :
    stateFull0.crtcs[0]? =
      some { ptr := true, state := some crtcState0, commit := none, outFencePtr := none } ∧
    ({ ptr := true, state := some crtcState0, commit := none,
        outFencePtr := none } : CrtcEntry).ptr = true ∧
    ((drm_atomic_state_default_clear stateFull0).1.crtcs)[0]? =
      some { ptr := false, state := none, commit := none, outFencePtr := none } ∧
    (∀ i, ((drm_atomic_state_default_clear stateFull0).2).count (Ev.destroyConn i) =
      if connEntryPopulated stateFull0 i = true then 1 else 0) ∧
    drm_atomic_state_default_clear (drm_atomic_state_default_clear stateFull0).1 =
      ((drm_atomic_state_default_clear stateFull0).1, []) :=
  ⟨by decide, by decide,
    (claim4_default_clear_exact_releases stateFull0).2.2.2.1 0
      { ptr := true, state := some crtcState0, commit := none, outFencePtr := none }
      (by decide) (by decide),
    (claim4_default_clear_exact_releases stateFull0).2.2.2.2.2.2.2.2.1,
    (claim4_default_clear_exact_releases stateFull0).2.2.2.2.2.2.2.2.2⟩

/-- The external-call trace of check-only is empty or exactly one global
check-hook invocation. -/
theorem check_only_trace_shape (env : Env) (dev : Device) (s : AtomicState) :
    (drm_atomic_check_only env dev s).2 = [] ∨
    (drm_atomic_check_only env dev s).2 = [Ev.checkHook] := by
  unfold drm_atomic_check_only
  cases check_planes dev 0 s.planes with
  | some e => left; rfl
  | none =>
    cases check_crtcs dev 0 s.crtcs with
    | some e => left; rfl
    | none =>
      cases henv : env.atomicCheck with
      | none =>
        dsimp only
        split
        · left; rfl
        · left; rfl
      | some f =>
        dsimp only
        cases f dev s with
        | some e => right; rfl
        | none =>
          dsimp only
          split
          · right; rfl
          · right; rfl

/-- C5: both commit entry points funnel through check-only first. When the
check fails, both return that error with the transaction still owned by the
caller and the external commit hook never invoked; when the check passes,
each invokes the commit hook exactly once with its nonblocking flag (false
for commit, true for nonblocking commit) and returns the hook's verdict. -/
theorem claim5_commit_funnels_through_check (env : Env) (dev : Device)
    (s : AtomicState) :
    (∀ e, (drm_atomic_check_only env dev s).1 = some e →
       drm_atomic_commit env dev s =
         (Except.error e, (drm_atomic_check_only env dev s).2) ∧
       drm_atomic_nonblocking_commit env dev s =
         (Except.error e, (drm_atomic_check_only env dev s).2) ∧
       (∀ b, Ev.commitHook b ∉ (drm_atomic_commit env dev s).2) ∧
       (∀ b, Ev.commitHook b ∉ (drm_atomic_nonblocking_commit env dev s).2)) ∧
    ((drm_atomic_check_only env dev s).1 = none →
       drm_atomic_commit env dev s =
         (env.atomicCommit dev s false,
           (drm_atomic_check_only env dev s).2 ++ [Ev.commitHook false]) ∧
       drm_atomic_nonblocking_commit env dev s =
         (env.atomicCommit dev s true,
           (drm_atomic_check_only env dev s).2 ++ [Ev.commitHook true])) := by
  have hshape := check_only_trace_shape env dev s
  cases hco : drm_atomic_check_only env dev s with
  | mk r evs =>
    rw [hco] at hshape
    constructor
    · intro e he
      have he2 : r = some e := he
      have hc : drm_atomic_commit env dev s = (Except.error e, evs) := by
        unfold drm_atomic_commit
        rw [hco, he2]
      have hn : drm_atomic_nonblocking_commit env dev s = (Except.error e, evs) := by
        unfold drm_atomic_nonblocking_commit
        rw [hco, he2]
      refine ⟨hc, hn, ?_, ?_⟩
      · intro b
        rw [hc]
        rcases hshape with h | h <;> rw [h] <;> simp
      · intro b
        rw [hn]
        rcases hshape with h | h <;> rw [h] <;> simp
    · intro h
      have h2 : r = none := h
      constructor
      · unfold drm_atomic_commit
        rw [hco, h2]
      · unfold drm_atomic_nonblocking_commit
        rw [hco, h2]

/-- C5 witness: on the quiescent fixture the check passes, so both entry
points invoke the commit hook with their respective flags. -/
theorem claim5_witness :
    (drm_atomic_check_only env0 dev0 state0).1 = none ∧
    (drm_atomic_commit env0 dev0 state0 =
       (env0.atomicCommit dev0 state0 false,
         (drm_atomic_check_only env0 dev0 state0).2 ++ [Ev.commitHook false]) ∧
     drm_atomic_nonblocking_commit env0 dev0 state0 =
       (env0.atomicCommit dev0 state0 true,
         (drm_atomic_check_only env0 dev0 state0).2 ++ [Ev.commitHook true])) :=
  ⟨by decide, (claim5_commit_funnels_through_check env0 dev0 state0).2 (by decide)⟩

/-- C6: check-only is side-effect free and idempotent: every verdict in any
number of repeated runs over the same transaction and device equals the
single-run verdict, and its external-call trace contains no commit-hook
invocation (the only operation that produces a new canonical device state
in this embedding), no snapshot-destroy call and no fd installation — so
the device's committed state and the transaction's snapshots are untouched. -/
theorem claim6_check_only_side_effect_free (env : Env) (dev : Device)
    (s : AtomicState) :
    (∀ n r, r ∈ checkOnlyRuns env dev s n → r = (drm_atomic_check_only env dev s).1) ∧
    (∀ b, Ev.commitHook b ∉ (drm_atomic_check_only env dev s).2) ∧
    (∀ i, Ev.destroyCrtc i ∉ (drm_atomic_check_only env dev s).2 ∧
          Ev.destroyPlane i ∉ (drm_atomic_check_only env dev s).2 ∧
          Ev.destroyConn i ∉ (drm_atomic_check_only env dev s).2 ∧
          Ev.fdInstall i ∉ (drm_atomic_check_only env dev s).2) := by
  have hshape := check_only_trace_shape env dev s
  refine ⟨?_, ?_, ?_⟩
  · intro n
    induction n with
    | zero => intro r hr; simp [checkOnlyRuns] at hr
    | succ k ih =>
      intro r hr
      rw [checkOnlyRuns] at hr
      rcases List.mem_cons.mp hr with h | h
      · exact h
      · exact ih r h
  · intro b
    rcases hshape with h | h <;> rw [h] <;> simp
  · intro i
    rcases hshape with h | h <;> rw [h] <;> simp

/-- C6 witness: three runs on the quiescent fixture all return the
single-run verdict none. -/
theorem claim6_witness :
    (none : Option Errno) ∈ checkOnlyRuns env0 dev0 state0 3 ∧
    (none : Option Errno) = (drm_atomic_check_only env0 dev0 state0).1 :=
  ⟨by decide, (claim6_check_only_side_effect_free env0 dev0 state0).1 3 none (by decide)⟩

/-- The wrapped fb extent is bounded by the exact one. -/
theorem toU32_shift16_le (w : Nat) : toU32 (w <<< 16) ≤ w * 65536 := by
  rw [toU32, Nat.shiftLeft_eq]
  exact Nat.mod_le _ _

/-- Below 65536 the shifted fb extent does not wrap. -/
theorem toU32_shift16_eq (w : Nat) (h : w < 65536) : toU32 (w <<< 16) = w * 65536 := by
  rw [toU32, Nat.shiftLeft_eq]
  exact Nat.mod_eq_of_lt (by
    show w * 2 ^ 16 < 4294967296
    calc w * 2 ^ 16 ≤ 65535 * 2 ^ 16 := Nat.mul_le_mul_right _ (by omega)
      _ < 4294967296 := by norm_num)

/-- C7 counterexample: the claim's acceptance direction fails. The source
computes fb_width = fb->width << 16 in C unsigned int, which wraps at 2^32:
for a 65536 x 65536 framebuffer the wrapped extent is 0, so the fully
contained source rectangle (0,0,65536,65536) - one pixel in 16.16 - is
rejected with ENOSPC even though every earlier check passes. -/
theorem claim7_counterexample :
    src_contained { id := 1, width := 65536, height := 65536, pixelFormat := 0 }
        { planeState0 with
          crtc := some 0,
          fb := some { id := 1, width := 65536, height := 65536, pixelFormat := 0 },
          src_w := 65536, src_h := 65536 } = true ∧
    drm_atomic_plane_check dev0 0
        { planeState0 with
          crtc := some 0,
          fb := some { id := 1, width := 65536, height := 65536, pixelFormat := 0 },
          src_w := 65536, src_h := 65536 } = some Errno.ENOSPC := by
  constructor
  · decide
  · decide

/-- C7 (corrected): for an enabled plane state whose earlier checks
(possible-CRTC membership, pixel format, CRTC-coordinate range) pass, the
source-geometry check rejects with ENOSPC every rectangle not contained in
the framebuffer; the converse acceptance holds only when the framebuffer
dimensions stay below 65536, where the 32-bit computation fb->width << 16
does not wrap (amended from the spec, whose unconditional acceptance claim
fails: see the counterexample at 65536 x 65536). The spec's concrete
instances (50x50 rejected, 200x200 accepted for src (0,0,100<<16,100<<16))
fall inside the amended bounds. -/
theorem claim7_src_rect_bounds (dev : Device) (pi : Nat) (ps : PlaneState)
    (c : Nat) (fb : Fb)
    (hcrtc : ps.crtc = some c) (hfb : ps.fb = some fb)
    (hposs : (dev.possibleCrtcs pi).testBit c = true)
    (hfmt : dev.planeFormatOk pi fb.pixelFormat = true)
    (hrange : ¬ (INT32MAX < (ps.crtc_w : Int) ∨
                 INT32MAX - i32OfU32 ps.crtc_w < ps.crtc_x ∨
                 INT32MAX < (ps.crtc_h : Int) ∨
                 INT32MAX - i32OfU32 ps.crtc_h < ps.crtc_y)) :
    (src_contained fb ps = false →
       drm_atomic_plane_check dev pi ps = some Errno.ENOSPC) ∧
    (fb.width < 65536 → fb.height < 65536 → src_contained fb ps = true →
       drm_atomic_plane_check dev pi ps ≠ some Errno.ENOSPC) := by
  have hW := toU32_shift16_le fb.width
  have hH := toU32_shift16_le fb.height
  constructor
  · intro h
    have hc : ¬ (ps.src_x + ps.src_w ≤ fb.width * 65536 ∧
                 ps.src_y + ps.src_h ≤ fb.height * 65536) := by
      intro hand
      rw [src_contained] at h
      simp [hand.1, hand.2] at h
    unfold drm_atomic_plane_check
    rw [hcrtc, hfb]
    dsimp only
    rw [if_neg (by simp [hposs]), if_neg (by simp [hfmt]), if_neg hrange]
    show (if toU32 (fb.width <<< 16) < ps.src_w ∨
            toU32 (fb.width <<< 16) - ps.src_w < ps.src_x ∨
            toU32 (fb.height <<< 16) < ps.src_h ∨
            toU32 (fb.height <<< 16) - ps.src_h < ps.src_y then
          some Errno.ENOSPC
        else if plane_switching_crtc dev pi ps then some Errno.EINVAL
        else none) = some Errno.ENOSPC
    rw [if_pos (by omega)]
  · intro hw hh h
    rw [src_contained, Bool.and_eq_true, decide_eq_true_eq, decide_eq_true_eq] at h
    have hWe := toU32_shift16_eq fb.width hw
    have hHe := toU32_shift16_eq fb.height hh
    unfold drm_atomic_plane_check
    rw [hcrtc, hfb]
    dsimp only
    rw [if_neg (by simp [hposs]), if_neg (by simp [hfmt]), if_neg hrange]
    show (if toU32 (fb.width <<< 16) < ps.src_w ∨
            toU32 (fb.width <<< 16) - ps.src_w < ps.src_x ∨
            toU32 (fb.height <<< 16) < ps.src_h ∨
            toU32 (fb.height <<< 16) - ps.src_h < ps.src_y then
          some Errno.ENOSPC
        else if plane_switching_crtc dev pi ps then some Errno.EINVAL
        else none) ≠ some Errno.ENOSPC
    rw [if_neg (by omega)]
    cases hsw : plane_switching_crtc dev pi ps
    · rw [if_neg (by simp [hsw])]
      simp
    · rw [if_pos (by simp [hsw])]
      simp

/-- C7 witness, at the spec's own concrete instances: the source rectangle
(0,0,100 shl 16,100 shl 16) is rejected with ENOSPC against a 50x50
framebuffer and passes the source-geometry check against a 200x200 one. -/
theorem claim7_witness :
    (({ planeState0 with
        crtc := some 0,
        fb := some { id := 2, width := 50, height := 50, pixelFormat := 0 },
        src_w := 100 <<< 16, src_h := 100 <<< 16 } : PlaneState).crtc = some 0 ∧
     drm_atomic_plane_check dev0 0
        { planeState0 with
          crtc := some 0,
          fb := some { id := 2, width := 50, height := 50, pixelFormat := 0 },
          src_w := 100 <<< 16, src_h := 100 <<< 16 } = some Errno.ENOSPC) ∧
    ((50 : Nat) < 65536 ∧
     drm_atomic_plane_check dev0 0
        { planeState0 with
          crtc := some 0,
          fb := some { id := 3, width := 200, height := 200, pixelFormat := 0 },
          src_w := 100 <<< 16, src_h := 100 <<< 16 } ≠ some Errno.ENOSPC) :=
  ⟨⟨by decide,
    (claim7_src_rect_bounds dev0 0
      { planeState0 with
        crtc := some 0,
        fb := some { id := 2, width := 50, height := 50, pixelFormat := 0 },
        src_w := 100 <<< 16, src_h := 100 <<< 16 } 0
      { id := 2, width := 50, height := 50, pixelFormat := 0 }
      rfl rfl (by decide) (by decide) (by decide)).1 (by decide)⟩,
   ⟨by decide,
    (claim7_src_rect_bounds dev0 0
      { planeState0 with
        crtc := some 0,
        fb := some { id := 3, width := 200, height := 200, pixelFormat := 0 },
        src_w := 100 <<< 16, src_h := 100 <<< 16 } 0
      { id := 3, width := 200, height := 200, pixelFormat := 0 }
      rfl rfl (by decide) (by decide) (by decide)).2 (by decide) (by decide)
      (by decide)⟩⟩

/-- C8: a completion-event request on a CRTC that is inactive in both the
canonical state and the proposed state fails the CRTC check with EINVAL,
while a CRTC that was inactive and becomes active (with a consistent
enable/mode pair) passes the check. -/
theorem claim8_event_on_inactive_crtc (dev : Device) (i : Nat) (cs : CrtcState) :
    (cs.event.isSome = true → cs.active = false → dev.crtcCurActive i = false →
       drm_atomic_crtc_check dev i cs = some Errno.EINVAL) ∧
    (∀ b, cs.event.isSome = true → dev.crtcCurActive i = false → cs.active = true →
       cs.enable = true → cs.modeBlob = some b →
       drm_atomic_crtc_check dev i cs = none) := by
  constructor
  · intro he ha hc
    unfold drm_atomic_crtc_check
    split_ifs with h1 h2 h3 h4
    · rfl
    · rfl
    · rfl
    · rfl
    · exact absurd (by simp [he, ha, hc]) h4
  · intro b he hc ha hen hmb
    unfold drm_atomic_crtc_check
    split_ifs with h1 h2 h3 h4
    · rw [ha, hen] at h1
      simp at h1
    · rw [hen, hmb] at h2
      simp at h2
    · rw [hen] at h3
      simp at h3
    · rw [ha] at h4
      simp at h4
    · rfl

/-- C8 witness: on a dev0 CRTC (inactive in the canonical state), an event
request with the CRTC staying inactive is rejected, and one that activates
the CRTC passes. -/
theorem claim8_witness :
    (({ crtcState0 with event := some { hasFence := false, hasFilePriv := false } }
        : CrtcState).event.isSome = true ∧
      ({ crtcState0 with event := some { hasFence := false, hasFilePriv := false } }
        : CrtcState).active = false ∧
      dev0.crtcCurActive 0 = false ∧
      drm_atomic_crtc_check dev0 0
        { crtcState0 with event := some { hasFence := false, hasFilePriv := false } } =
        some Errno.EINVAL) ∧
    (drm_atomic_crtc_check dev0 0
        { crtcState0 with
          event := some { hasFence := false, hasFilePriv := false },
          active := true, enable := true, modeBlob := some 9 } = none) :=
  ⟨⟨by decide, by decide, by decide,
    (claim8_event_on_inactive_crtc dev0 0
      { crtcState0 with event := some { hasFence := false, hasFilePriv := false } }).1
      (by decide) (by decide) (by decide)⟩,
    (claim8_event_on_inactive_crtc dev0 0
      { crtcState0 with
        event := some { hasFence := false, hasFilePriv := false },
        active := true, enable := true, modeBlob := some 9 }).2 9
      (by decide) (by decide) (by decide) (by decide) (by decide)⟩

/-- C9: IN_FENCE_FD is set-once per transaction: setting it while the plane
state already carries a fence fails EINVAL and changes nothing, and setting
the u64 sentinel -1 (no fence) on a fence-free state is a successful no-op
that leaves the transaction, and hence the stored fence, unchanged. -/
theorem claim9_in_fence_fd_set_once (env : Env) (s : AtomicState) (pi : Nat)
    (ps : PlaneState) (hps : drm_atomic_get_existing_plane_state s pi = some ps) :
    (ps.fence.isSome = true → ∀ val,
       drm_atomic_plane_set_property env s pi PropId.inFenceFd val =
         (Except.error Errno.EINVAL, s, [])) ∧
    (ps.fence = none →
       drm_atomic_plane_set_property env s pi PropId.inFenceFd U64MAX =
         (Except.ok (), s, [])) := by
  constructor
  · intro hf val
    unfold drm_atomic_plane_set_property
    rw [hps]
    dsimp only
    rw [if_pos hf]
  · intro hf
    unfold drm_atomic_plane_set_property
    rw [hps]
    dsimp only
    rw [if_neg (by simp [hf]), if_pos rfl]

/-- C9 witness: a second IN_FENCE_FD set on a plane state carrying fence 7
fails EINVAL, and the sentinel on a fence-free state is a successful no-op. -/
theorem claim9_witness :
    (drm_atomic_get_existing_plane_state
        (putPlaneState state0 0 { planeState0 with fence := some 7 }) 0 =
      some { planeState0 with fence := some 7 } ∧
     ({ planeState0 with fence := some 7 } : PlaneState).fence.isSome = true ∧
     drm_atomic_plane_set_property env0
        (putPlaneState state0 0 { planeState0 with fence := some 7 }) 0
        PropId.inFenceFd 3 =
      (Except.error Errno.EINVAL,
        putPlaneState state0 0 { planeState0 with fence := some 7 }, [])) ∧
    (drm_atomic_get_existing_plane_state statePl0 0 = some planeState0 ∧
     planeState0.fence = none ∧
     drm_atomic_plane_set_property env0 statePl0 0 PropId.inFenceFd U64MAX =
      (Except.ok (), statePl0, [])) :=
  ⟨⟨by decide, by decide,
    (claim9_in_fence_fd_set_once env0
      (putPlaneState state0 0 { planeState0 with fence := some 7 }) 0
      { planeState0 with fence := some 7 } (by decide)).1 (by decide) 3⟩,
   ⟨by decide, by decide,
    (claim9_in_fence_fd_set_once env0 statePl0 0 planeState0 (by decide)).2 (by decide)⟩⟩

/-! C2 infrastructure: no component below the top-level retry loop ever
invokes a snapshot-destroy hook, i.e. nothing below the loop performs the
clear that precedes a retry. -/

theorem noDestroy_cons_of (e : Ev) (l : List Ev) (he : nonDestroyEv e = true)
    (hl : noDestroy l = true) : noDestroy (e :: l) = true := by
  show (nonDestroyEv e && noDestroy l) = true
  rw [he, hl]
  rfl

theorem noDestroy_append_of (a b : List Ev) (ha : noDestroy a = true)
    (hb : noDestroy b = true) : noDestroy (a ++ b) = true := by
  rw [noDestroy, List.all_append]
  rw [noDestroy] at ha hb
  rw [ha, hb]
  rfl

theorem nd_get_crtc_state (env : Env) (s s2 : AtomicState)
    (r : Except Errno CrtcState) (evs : List Ev) (i : Nat)
    (h : drm_atomic_get_crtc_state env s i = (r, s2, evs)) :
    noDestroy evs = true := by
  have hs := get_crtc_state_trace env s i
  rw [h] at hs
  rcases hs with h2 | h2
  · have h3 : evs = [] := h2
    subst h3
    rfl
  · have h3 : evs = [Ev.dupCrtc i] := h2
    subst h3
    rfl

theorem nd_get_plane_state (env : Env) (s s2 : AtomicState)
    (r : Except Errno PlaneState) (evs : List Ev) (i : Nat)
    (h : drm_atomic_get_plane_state env s i = (r, s2, evs)) :
    noDestroy evs = true := by
  rw [drm_atomic_get_plane_state] at h
  split at h
  · injection h with h1 h2
    injection h2 with h2 h3
    rw [← h3]
    rfl
  · split at h
    · injection h with h1 h2
      injection h2 with h2 h3
      rw [← h3]
      rfl
    · split at h
      · injection h with h1 h2
        injection h2 with h2 h3
        rw [← h3]
        rfl
      · split at h
        · injection h with h1 h2
          injection h2 with h2 h3
          rw [← h3]
          rfl
        · dsimp only at h
          split at h
          · rename_i heq
            injection h with h1 h2
            injection h2 with h2 h3
            rw [← h3]
            exact noDestroy_cons_of _ _ rfl (nd_get_crtc_state env _ _ _ _ _ heq)
          · rename_i heq
            injection h with h1 h2
            injection h2 with h2 h3
            rw [← h3]
            exact noDestroy_cons_of _ _ rfl (nd_get_crtc_state env _ _ _ _ _ heq)

theorem nd_conn_tail (env : Env) (t s2 : AtomicState)
    (r : Except Errno ConnState) (evs : List Ev) (i : Nat)
    (h : drm_atomic_get_connector_state_tail env t i = (r, s2, evs)) :
    noDestroy evs = true := by
  rw [drm_atomic_get_connector_state_tail] at h
  split at h
  · injection h with h1 h2
    injection h2 with h2 h3
    rw [← h3]
    rfl
  · split at h
    · injection h with h1 h2
      injection h2 with h2 h3
      rw [← h3]
      rfl
    · split at h
      · injection h with h1 h2
        injection h2 with h2 h3
        rw [← h3]
        rfl
      · dsimp only at h
        split at h
        · rename_i heq
          injection h with h1 h2
          injection h2 with h2 h3
          rw [← h3]
          exact noDestroy_cons_of _ _ rfl
            (noDestroy_cons_of _ _ rfl (nd_get_crtc_state env _ _ _ _ _ heq))
        · rename_i heq
          injection h with h1 h2
          injection h2 with h2 h3
          rw [← h3]
          exact noDestroy_cons_of _ _ rfl
            (noDestroy_cons_of _ _ rfl (nd_get_crtc_state env _ _ _ _ _ heq))

theorem nd_get_connector_state (env : Env) (dev : Device) (s s2 : AtomicState)
    (r : Except Errno ConnState) (evs : List Ev) (i : Nat)
    (h : drm_atomic_get_connector_state env dev s i = (r, s2, evs)) :
    noDestroy evs = true := by
  rw [drm_atomic_get_connector_state] at h
  split at h
  · injection h with h1 h2
    injection h2 with h2 h3
    rw [← h3]
    rfl
  · split at h
    · dsimp only at h
      split at h
      · exact nd_conn_tail env _ _ _ _ _ h
      · injection h with h1 h2
        injection h2 with h2 h3
        rw [← h3]
        rfl
    · exact nd_conn_tail env _ _ _ _ _ h

theorem nd_set_fb_for_plane (ps ps2 : PlaneState) (fb : Option Fb) (evs : List Ev)
    (h : drm_atomic_set_fb_for_plane ps fb = (ps2, evs)) :
    noDestroy evs = true := by
  rw [drm_atomic_set_fb_for_plane.eq_def] at h
  cases hpf : ps.fb <;> rw [hpf] at h <;> cases hfb : fb <;> rw [hfb] at h <;>
    dsimp only at h
  all_goals injection h with h1 h2
  all_goals rw [← h2]
  all_goals rfl

theorem nd_set_crtc_for_plane (env : Env) (s s2 : AtomicState) (pi : Nat)
    (crtc : Option Nat) (r : Except Errno Unit) (evs : List Ev)
    (h : drm_atomic_set_crtc_for_plane env s pi crtc = (r, s2, evs)) :
    noDestroy evs = true := by
  rw [drm_atomic_set_crtc_for_plane] at h
  split at h
  · injection h with h1 h2
    injection h2 with h2 h3
    rw [← h3]
    rfl
  · split at h
    · injection h with h1 h2
      injection h2 with h2 h3
      rw [← h3]
      rfl
    · split at h
      · dsimp only at h
        split at h
        · injection h with h1 h2
          injection h2 with h2 h3
          rw [← h3]
          rfl
        · split at h
          · rename_i heq
            injection h with h1 h2
            injection h2 with h2 h3
            rw [← h3]
            exact nd_get_crtc_state env _ _ _ _ _ heq
          · rename_i heq
            injection h with h1 h2
            injection h2 with h2 h3
            rw [← h3]
            exact nd_get_crtc_state env _ _ _ _ _ heq
      · split at h
        · rename_i heq
          dsimp only at h
          injection h with h1 h2
          injection h2 with h2 h3
          rw [← h3]
          exact nd_get_crtc_state env _ _ _ _ _ heq
        · rename_i heq
          dsimp only at h
          split at h
          · injection h with h1 h2
            injection h2 with h2 h3
            rw [← h3]
            exact nd_get_crtc_state env _ _ _ _ _ heq
          · split at h
            · rename_i heq2
              injection h with h1 h2
              injection h2 with h2 h3
              rw [← h3]
              exact noDestroy_append_of _ _ (nd_get_crtc_state env _ _ _ _ _ heq)
                (nd_get_crtc_state env _ _ _ _ _ heq2)
            · rename_i heq2
              injection h with h1 h2
              injection h2 with h2 h3
              rw [← h3]
              exact noDestroy_append_of _ _ (nd_get_crtc_state env _ _ _ _ _ heq)
                (nd_get_crtc_state env _ _ _ _ _ heq2)

theorem nd_set_crtc_for_connector (env : Env) (s s2 : AtomicState) (ci : Nat)
    (crtc : Option Nat) (r : Except Errno Unit) (evs : List Ev)
    (h : drm_atomic_set_crtc_for_connector env s ci crtc = (r, s2, evs)) :
    noDestroy evs = true := by
  rw [drm_atomic_set_crtc_for_connector] at h
  split at h
  · injection h with h1 h2
    injection h2 with h2 h3
    rw [← h3]
    rfl
  · split at h
    · injection h with h1 h2
      injection h2 with h2 h3
      rw [← h3]
      rfl
    · split at h
      · dsimp only at h
        split at h
        · injection h with h1 h2
          injection h2 with h2 h3
          rw [← h3]
          rfl
        · split at h
          · rename_i heq
            injection h with h1 h2
            injection h2 with h2 h3
            rw [← h3]
            exact nd_get_crtc_state env _ _ _ _ _ heq
          · rename_i heq
            injection h with h1 h2
            injection h2 with h2 h3
            rw [← h3]
            exact noDestroy_append_of _ _ (nd_get_crtc_state env _ _ _ _ _ heq) rfl
      · split at h
        · dsimp only at h
          injection h with h1 h2
          injection h2 with h2 h3
          rw [← h3]
          rfl
        · dsimp only at h
          split at h
          · injection h with h1 h2
            injection h2 with h2 h3
            rw [← h3]
            rfl
          · split at h
            · rename_i heq
              injection h with h1 h2
              injection h2 with h2 h3
              rw [← h3]
              exact noDestroy_append_of _ _ rfl (nd_get_crtc_state env _ _ _ _ _ heq)
            · rename_i heq
              injection h with h1 h2
              injection h2 with h2 h3
              rw [← h3]
              exact noDestroy_append_of _ _
                (noDestroy_append_of _ _ rfl (nd_get_crtc_state env _ _ _ _ _ heq)) rfl

theorem nd_triple {α β : Type} (a : α) (b : β) (l : List Ev) (r : α) (s2 : β)
    (evs : List Ev) (h : (a, b, l) = (r, s2, evs)) (hl : noDestroy l = true) :
    noDestroy evs = true := by
  injection h with h1 h2
  injection h2 with h2 h3
  rw [← h3]
  exact hl

theorem nd_plane_set_property (env : Env) (s s2 : AtomicState) (pi : Nat)
    (prop : PropId) (val : Nat) (r : Except Errno Unit) (evs : List Ev)
    (h : drm_atomic_plane_set_property env s pi prop val = (r, s2, evs)) :
    noDestroy evs = true := by
  rw [drm_atomic_plane_set_property] at h
  split at h
  · exact nd_triple _ _ _ _ _ _ h rfl
  · split at h
    · split at h
      · rename_i heq
        exact nd_triple _ _ _ _ _ _ h (nd_set_fb_for_plane _ _ _ _ heq)
    · split at h
      · exact nd_triple _ _ _ _ _ _ h rfl
      · split at h
        · exact nd_triple _ _ _ _ _ _ h rfl
        · split at h
          · exact nd_triple _ _ _ _ _ _ h rfl
          · exact nd_triple _ _ _ _ _ _ h rfl
    · exact nd_set_crtc_for_plane env _ _ _ _ _ _ h
    · exact nd_triple _ _ _ _ _ _ h rfl
    · exact nd_triple _ _ _ _ _ _ h rfl
    · exact nd_triple _ _ _ _ _ _ h rfl
    · exact nd_triple _ _ _ _ _ _ h rfl
    · exact nd_triple _ _ _ _ _ _ h rfl
    · exact nd_triple _ _ _ _ _ _ h rfl
    · exact nd_triple _ _ _ _ _ _ h rfl
    · exact nd_triple _ _ _ _ _ _ h rfl
    · exact nd_triple _ _ _ _ _ _ h rfl
    · exact nd_triple _ _ _ _ _ _ h rfl
    · split at h
      · split at h
        · exact nd_triple _ _ _ _ _ _ h rfl
        · exact nd_triple _ _ _ _ _ _ h rfl
      · exact nd_triple _ _ _ _ _ _ h rfl

theorem nd_connector_set_property (env : Env) (s s2 : AtomicState) (ci : Nat)
    (prop : PropId) (val : Nat) (r : Except Errno Unit) (evs : List Ev)
    (h : drm_atomic_connector_set_property env s ci prop val = (r, s2, evs)) :
    noDestroy evs = true := by
  rw [drm_atomic_connector_set_property] at h
  split at h
  · exact nd_triple _ _ _ _ _ _ h rfl
  · split at h
    · exact nd_set_crtc_for_connector env _ _ _ _ _ _ h
    · exact nd_triple _ _ _ _ _ _ h rfl
    · split at h
      · split at h
        · exact nd_triple _ _ _ _ _ _ h rfl
        · exact nd_triple _ _ _ _ _ _ h rfl
      · exact nd_triple _ _ _ _ _ _ h rfl

theorem nd_atomic_set_prop (env : Env) (dev : Device) (s s2 : AtomicState)
    (obj : ObjRef) (prop : PropId) (val : Nat) (r : Except Errno Unit)
    (evs : List Ev) (h : atomic_set_prop env dev s obj prop val = (r, s2, evs)) :
    noDestroy evs = true := by
  rw [atomic_set_prop.eq_def] at h
  split at h
  · exact nd_triple _ _ _ _ _ _ h rfl
  · split at h
    · split at h
      · rename_i heq
        exact nd_triple _ _ _ _ _ _ h (nd_get_connector_state env dev _ _ _ _ _ heq)
      · rename_i heq
        split at h
        · rename_i heq2
          exact nd_triple _ _ _ _ _ _ h
            (noDestroy_append_of _ _ (nd_get_connector_state env dev _ _ _ _ _ heq)
              (nd_connector_set_property env _ _ _ _ _ _ _ heq2))
    · split at h
      · rename_i heq
        exact nd_triple _ _ _ _ _ _ h (nd_get_crtc_state env _ _ _ _ _ heq)
      · rename_i heq
        split at h
        · exact nd_triple _ _ _ _ _ _ h (nd_get_crtc_state env _ _ _ _ _ heq)
    · split at h
      · rename_i heq
        exact nd_triple _ _ _ _ _ _ h (nd_get_plane_state env _ _ _ _ _ heq)
      · rename_i heq
        split at h
        · rename_i heq2
          exact nd_triple _ _ _ _ _ _ h
            (noDestroy_append_of _ _ (nd_get_plane_state env _ _ _ _ _ heq)
              (nd_plane_set_property env _ _ _ _ _ _ _ heq2))
    · exact nd_triple _ _ _ _ _ _ h rfl

theorem nd_processProps (env : Env) (dev : Device) (obj : ObjRef)
    (props : List (Nat × Nat)) :
    ∀ s s2 r evs, processProps env dev obj s props = (r, s2, evs) →
      noDestroy evs = true := by
  induction props with
  | nil =>
    intro s s2 r evs h
    rw [processProps] at h
    exact nd_triple _ _ _ _ _ _ h rfl
  | cons pv rest ih =>
    intro s s2 r evs h
    cases pv with
    | mk propRaw val =>
      rw [processProps] at h
      split at h
      · exact nd_triple _ _ _ _ _ _ h rfl
      · split at h
        · rename_i heq
          exact nd_triple _ _ _ _ _ _ h (nd_atomic_set_prop env dev _ _ _ _ _ _ _ heq)
        · rename_i heq
          split at h
          · rename_i heq2
            exact nd_triple _ _ _ _ _ _ h
              (noDestroy_append_of _ _ (nd_atomic_set_prop env dev _ _ _ _ _ _ _ heq)
                (ih _ _ _ _ heq2))

theorem nd_processObjs (env : Env) (dev : Device)
    (objs : List (Nat × List (Nat × Nat))) :
    ∀ s s2 r evs, processObjs env dev s objs = (r, s2, evs) →
      noDestroy evs = true := by
  induction objs with
  | nil =>
    intro s s2 r evs h
    rw [processObjs] at h
    exact nd_triple _ _ _ _ _ _ h rfl
  | cons op rest ih =>
    intro s s2 r evs h
    cases op with
    | mk objId props =>
      rw [processObjs] at h
      split at h
      · exact nd_triple _ _ _ _ _ _ h rfl
      · split at h
        · exact nd_triple _ _ _ _ _ _ h rfl
        · split at h
          · rename_i heq
            exact nd_triple _ _ _ _ _ _ h (nd_processProps env dev _ _ _ _ _ _ heq)
          · rename_i heq
            split at h
            · rename_i heq2
              exact nd_triple _ _ _ _ _ _ h
                (noDestroy_append_of _ _ (nd_processProps env dev _ _ _ _ _ _ heq)
                  (ih _ _ _ _ heq2))

theorem nd_cancel_events (l : List CrtcEntry) : ∀ n kl evs,
    cancel_events n l = (kl, evs) → noDestroy evs = true := by
  induction l with
  | nil =>
    intro n kl evs h
    rw [cancel_events] at h
    injection h with h1 h2
    rw [← h2]
    rfl
  | cons e rest ih =>
    intro n kl evs h
    rw [cancel_events] at h
    split at h
    · rename_i heq
      split at h
      · split at h
        · split at h
          · injection h with h1 h2
            rw [← h2]
            exact noDestroy_cons_of _ _ rfl (ih _ _ _ heq)
          · injection h with h1 h2
            rw [← h2]
            exact ih _ _ _ heq
        · injection h with h1 h2
          rw [← h2]
          exact ih _ _ _ heq
      · injection h with h1 h2
        rw [← h2]
        exact ih _ _ _ heq

theorem nd_fdInstall_filterMap (fences : List OutFenceState) :
    noDestroy (fences.filterMap (fun f => Option.map Ev.fdInstall f.fd)) = true := by
  induction fences with
  | nil => rfl
  | cons f rest ih =>
    rw [List.filterMap_cons]
    cases hf : f.fd with
    | none => exact ih
    | some fd => exact noDestroy_cons_of _ _ rfl ih

theorem nd_complete_crtc_signaling (s : AtomicState) (fences : List OutFenceState)
    (install : Bool) (s2 : AtomicState) (evs : List Ev)
    (h : complete_crtc_signaling s fences install = (s2, evs)) :
    noDestroy evs = true := by
  rw [complete_crtc_signaling] at h
  split at h
  · injection h with h1 h2
    rw [← h2]
    exact nd_fdInstall_filterMap fences
  · split at h
    · rename_i heq
      injection h with h1 h2
      rw [← h2]
      exact nd_cancel_events _ _ _ _ heq

theorem nd_check_only (env : Env) (dev : Device) (s : AtomicState) (r : Option Errno)
    (evs : List Ev) (h : drm_atomic_check_only env dev s = (r, evs)) :
    noDestroy evs = true := by
  have hs := check_only_trace_shape env dev s
  rw [h] at hs
  rcases hs with h2 | h2
  · have h3 : evs = [] := h2
    subst h3
    rfl
  · have h3 : evs = [Ev.checkHook] := h2
    subst h3
    rfl

theorem nd_commit (env : Env) (dev : Device) (s : AtomicState)
    (r : Except Errno Device) (evs : List Ev)
    (h : drm_atomic_commit env dev s = (r, evs)) :
    noDestroy evs = true := by
  rw [drm_atomic_commit] at h
  split at h
  · rename_i heq
    injection h with h1 h2
    rw [← h2]
    exact nd_check_only env dev s _ _ heq
  · rename_i heq
    injection h with h1 h2
    rw [← h2]
    exact noDestroy_append_of _ _ (nd_check_only env dev s _ _ heq) rfl

theorem nd_nonblocking_commit (env : Env) (dev : Device) (s : AtomicState)
    (r : Except Errno Device) (evs : List Ev)
    (h : drm_atomic_nonblocking_commit env dev s = (r, evs)) :
    noDestroy evs = true := by
  rw [drm_atomic_nonblocking_commit] at h
  split at h
  · rename_i heq
    injection h with h1 h2
    rw [← h2]
    exact nd_check_only env dev s _ _ heq
  · rename_i heq
    injection h with h1 h2
    rw [← h2]
    exact noDestroy_append_of _ _ (nd_check_only env dev s _ _ heq) rfl

theorem nd_complete_proj (s : AtomicState) (fences : List OutFenceState)
    (install : Bool) :
    noDestroy (complete_crtc_signaling s fences install).2 = true :=
  nd_complete_crtc_signaling s fences install _ _ rfl

theorem nd_check_only_proj (env : Env) (dev : Device) (s : AtomicState) :
    noDestroy (drm_atomic_check_only env dev s).2 = true :=
  nd_check_only env dev s _ _ rfl

theorem nd_ioctl_round (env : Env) (arg : IoctlArg) (fp : Bool) (dev : Device)
    (s : AtomicState) (ret : Option Errno) (dev2 : Device) (s2 : AtomicState)
    (evs : List Ev) (h : ioctl_round env arg fp dev s = (ret, dev2, s2, evs)) :
    noDestroy evs = true := by
  rw [ioctl_round] at h
  split at h
  · rename_i heq
    split at h
    · rename_i heq2
      injection h with h1 h2
      injection h2 with h2 h3
      injection h3 with h3 h4
      rw [← h4]
      exact noDestroy_append_of _ _ (nd_processObjs env dev _ _ _ _ _ heq)
        (nd_complete_crtc_signaling _ _ _ _ _ heq2)
  · rename_i heq
    split at h
    · rename_i heq2
      split at h
      · rename_i heq3
        injection h with h1 h2
        injection h2 with h2 h3
        injection h3 with h3 h4
        rw [← h4]
        exact noDestroy_append_of _ _ (nd_processObjs env dev _ _ _ _ _ heq)
          (nd_complete_crtc_signaling _ _ _ _ _ heq3)
    · rename_i heq2
      dsimp only at h
      split at h
      · injection h with h1 h2
        injection h2 with h2 h3
        injection h3 with h3 h4
        rw [← h4]
        exact noDestroy_append_of _ _
          (noDestroy_append_of _ _ (nd_processObjs env dev _ _ _ _ _ heq)
            (nd_check_only_proj env dev _))
          (nd_complete_proj _ _ _)
      · split at h
        · split at h
          · rename_i heq3
            injection h with h1 h2
            injection h2 with h2 h3
            injection h3 with h3 h4
            rw [← h4]
            exact noDestroy_append_of _ _
              (noDestroy_append_of _ _ (nd_processObjs env dev _ _ _ _ _ heq)
                (nd_nonblocking_commit env dev _ _ _ heq3))
              (nd_complete_proj _ _ _)
          · rename_i heq3
            injection h with h1 h2
            injection h2 with h2 h3
            injection h3 with h3 h4
            rw [← h4]
            exact noDestroy_append_of _ _
              (noDestroy_append_of _ _ (nd_processObjs env dev _ _ _ _ _ heq)
                (nd_nonblocking_commit env dev _ _ _ heq3))
              (nd_complete_proj _ _ _)
        · split at h
          · rename_i heq3
            injection h with h1 h2
            injection h2 with h2 h3
            injection h3 with h3 h4
            rw [← h4]
            exact noDestroy_append_of _ _
              (noDestroy_append_of _ _ (nd_processObjs env dev _ _ _ _ _ heq)
                (nd_commit env dev _ _ _ heq3))
              (nd_complete_proj _ _ _)
          · rename_i heq3
            injection h with h1 h2
            injection h2 with h2 h3
            injection h3 with h3 h4
            rw [← h4]
            exact noDestroy_append_of _ _
              (noDestroy_append_of _ _ (nd_processObjs env dev _ _ _ _ _ heq)
                (nd_commit env dev _ _ _ heq3))
              (nd_complete_proj _ _ _)

/-- C2: at the top-level ioctl retry loop, EDEADLK is the only error handled
internally: a round that ends in EDEADLK makes the loop clear the whole
transaction, back off the acquire context and run the next round on the
cleared state, keeping the accumulated trace; a round that ends in any
other error makes the loop stop, tear the transaction down (the clear trace
follows the round trace) and return that error code unchanged; and no
component inside a round ever invokes a snapshot-destroy hook, so nothing
below the loop performs the clear that precedes a retry. -/
theorem claim2_deadlock_only_retry (env : Env) (arg : IoctlArg) (fp : Bool)
    (fuel : Nat) (dev : Device) (s : AtomicState) :
    ((ioctl_round env arg fp dev s).1 = some Errno.EDEADLK →
       drm_mode_atomic_ioctl_loop env arg fp (fuel + 1) dev s =
         { drm_mode_atomic_ioctl_loop env arg fp fuel
             (ioctl_round env arg fp dev s).2.1
             { (drm_atomic_state_default_clear (ioctl_round env arg fp dev s).2.2.1).1 with
               held := env.backoff
                 (drm_atomic_state_default_clear
                   (ioctl_round env arg fp dev s).2.2.1).1.held }
           with
           trace := (ioctl_round env arg fp dev s).2.2.2 ++
             (drm_atomic_state_default_clear (ioctl_round env arg fp dev s).2.2.1).2 ++
             (drm_mode_atomic_ioctl_loop env arg fp fuel
                 (ioctl_round env arg fp dev s).2.1
                 { (drm_atomic_state_default_clear
                     (ioctl_round env arg fp dev s).2.2.1).1 with
                   held := env.backoff
                     (drm_atomic_state_default_clear
                       (ioctl_round env arg fp dev s).2.2.1).1.held }).trace }) ∧
    (∀ e, (ioctl_round env arg fp dev s).1 = some e → e ≠ Errno.EDEADLK →
       drm_mode_atomic_ioctl_loop env arg fp (fuel + 1) dev s =
         { ret := some e,
           dev := (ioctl_round env arg fp dev s).2.1,
           freed := true,
           trace := (ioctl_round env arg fp dev s).2.2.2 ++
             (drm_atomic_state_default_clear
               (ioctl_round env arg fp dev s).2.2.1).2 }) ∧
    noDestroy (ioctl_round env arg fp dev s).2.2.2 = true := by
  cases hr : ioctl_round env arg fp dev s with
  | mk ret rest =>
    cases rest with
    | mk dev2 rest2 =>
      cases rest2 with
      | mk s2 evs =>
        dsimp only
        refine ⟨?_, ?_, ?_⟩
        · intro h
          have h2 : ret = some Errno.EDEADLK := h
          subst h2
          rw [drm_mode_atomic_ioctl_loop]
          rw [hr]
          dsimp only
          rw [if_pos rfl]
        · intro e he hne
          have h2 : ret = some e := he
          subst h2
          rw [drm_mode_atomic_ioctl_loop]
          rw [hr]
          dsimp only
          rw [if_neg (by simp [hne])]
          rw [ioctl_finish]
        · exact nd_ioctl_round env arg fp dev s _ _ _ _ hr

/-- C2 witness: a round whose first object lookup misses ends in ENOENT,
which is not EDEADLK, so the loop aborts with ENOENT and tears the
transaction down. -/
theorem claim2_witness :
    (ioctl_round env0 argE true dev0 state0).1 = some Errno.ENOENT ∧
    Errno.ENOENT ≠ Errno.EDEADLK ∧
    drm_mode_atomic_ioctl_loop env0 argE true 4 dev0 state0 =
      { ret := some Errno.ENOENT,
        dev := (ioctl_round env0 argE true dev0 state0).2.1,
        freed := true,
        trace := (ioctl_round env0 argE true dev0 state0).2.2.2 ++
          (drm_atomic_state_default_clear
            (ioctl_round env0 argE true dev0 state0).2.2.1).2 } :=
  ⟨by decide, by decide,
    (claim2_deadlock_only_retry env0 argE true 3 dev0 state0).2.1 Errno.ENOENT
      (by decide) (by decide)⟩

end DrmAtomic
